import Mathlib

/-!
Verification development for the communications core of the ldmud game
driver (file src/comm.c of the repository).  The definitions below are a
shallow embedding of the C code: bytes are Nat values reduced mod 256,
buffers are total functions from numeric indices to byte values, and the
telnet machine (function telnet_neg together with the reply tables set up
by init_telopts) is rendered as a fuelled step function whose phases are
named after the C labels.  Numeric installation constants that live in
headers not present in the repository snapshot (config.h, comm.h and the
telnet option header) are modelled from the specification and from the
standard telnet option numbering; each such definition carries a comment
saying so.
-/

namespace LdmudComm

/-- Modelled from the spec: size of the raw input buffer of a session
(MAX_TEXT, from config.h which is not part of src/; the spec gives a fixed
size, e.g. 2048 bytes). -/
def MAX_TEXT : Nat := 2048

/-- Modelled from the spec: number of commands an editing user may give in
one cycle (ALLOWED_ED_CMDS from config.h which is not part of src/; the
spec gives a fixed burst, e.g. 20). -/
def ALLOWED_ED_CMDS : Nat := 20

/-- Modelled from the spec: maximum size of one ERQ message
(ERQ_MAX_SEND from config.h which is not part of src/; the spec gives an
installation constant, e.g. 1024). -/
def ERQ_MAX_SEND : Nat := 1024

/-- Modelled from the spec: number of slots of the address cache iptable
(IPSIZE from comm.c configuration headers which are not part of src/; the
spec states a minimum of 200). -/
def IPSIZE : Nat := 200

/-- Modelled from the configuration: max_array_size 0 means unlimited. -/
def max_array_size : Int := 0

/- Telnet protocol byte values, from the standard telnet header (arpa
telnet.h, not part of src/). -/

def IAC : Nat := 255
def DONT : Nat := 254
def DO : Nat := 253
def WONT : Nat := 252
def WILL : Nat := 251
def SB : Nat := 250
def GA : Nat := 249
def DM : Nat := 242
def NOP : Nat := 241
def SE : Nat := 240
def EOR : Nat := 239
def TELOPT_ECHO : Nat := 1
def TELOPT_SGA : Nat := 3
def TELOPT_TTYPE : Nat := 24
def TELOPT_EOR : Nat := 25
def TELOPT_NAWS : Nat := 31
def TELOPT_TSPEED : Nat := 32
def TELOPT_LINEMODE : Nat := 34
def TELOPT_ENVIRON : Nat := 36
def TELOPT_XDISPLOC : Nat := 35
def TELOPT_NEWENV : Nat := 39
def NTELOPTS : Nat := 256

/- Bits of the noecho field.  Modelled from the spec (four two-bit pairs
plus a stale bit, section 4.5) and from the macro structure visible in
comm.c: CHARMODE_REQ_TO_CHARMODE and NOECHO_ACKSHIFT both shift left by
two positions, so the request bits occupy bits 0 and 1, the mode bits
bits 2 and 3, the acknowledge bits bits 4 and 5. -/

def NOECHO_REQ : Nat := 1
def CHARMODE_REQ : Nat := 2
def NOECHO : Nat := 4
def CHARMODE : Nat := 8
def NOECHO_ACK : Nat := 16
def CHARMODE_ACK : Nat := 32
def NOECHO_STALE : Nat := 64
def IGNORE_BANG : Nat := 128
def NOECHO_MASK : Nat := NOECHO ||| NOECHO_ACK
def CHARMODE_MASK : Nat := CHARMODE ||| CHARMODE_ACK

/-- Telnet machine states of comm.c (TS_xxx values from comm.h; only
their identity matters here). -/
inductive TState where
  | TS_DATA
  | TS_IAC
  | TS_WILL
  | TS_WONT
  | TS_DO
  | TS_DONT
  | TS_SB
  | TS_SB_IAC
  | TS_READY
  | TS_CR
  | TS_SYNCH
  | TS_INVALID
deriving Repr, DecidableEq

open TState

/-- The input buffer is modelled as a total function from indices to byte
values (the C array char text of size MAX_TEXT plus slack); reads and
writes go through bufGet and bufSet. -/
def Buf : Type := Nat → Nat

/-- Read text[i]. -/
def bufGet (t : Buf) (i : Nat) : Nat := t i

/-- Write text[i] := v. -/
def bufSet (t : Buf) (i v : Nat) : Buf := fun j => if j = i then v else t j

/-- The per-session state used by the telnet machine: the fields of
interactive_t that telnet_neg, the reply functions and set_noecho read or
write.  text is the raw/cooked input buffer, sent collects the bytes
written back to the peer socket (telnet replies and rubout sequences),
subnegs logs the (option, payload) pairs handed to the telnet-negotiation
hook, input_to holds the noecho flags of the pending input redirects, and
oob_pending models whether the socket still reports urgent data when the
Data Mark handling probes it. -/
structure Conn where
  text : Buf
  tn_state : TState
  ts_data : TState
  save_tn_state : TState
  gobble_char : Nat
  noecho : Nat
  command_start : Nat
  command_end : Nat
  tn_start : Nat
  tn_end : Nat
  text_end : Nat
  chars_ready : Nat
  supress_go_ahead : Bool
  input_to : List Nat
  oob_pending : Bool
  sent : List Nat
  subnegs : List (Nat × List Nat)

/-- Append bytes written to the peer socket. -/
def appendSent (c : Conn) (bs : List Nat) : Conn := {c with sent := c.sent ++ bs}

/-- Bytes text[a..b) of the buffer as a list. -/
def sliceList (t : Buf) (a b : Nat) : List Nat :=
  (List.range (b - a)).map (fun k => bufGet t (a + k))

/-- send_wont of comm.c: emit IAC WONT option. -/
def send_wont (o : Nat) (c : Conn) : Conn := appendSent c [IAC, WONT, o]

/-- send_dont of comm.c: emit IAC DONT option. -/
def send_dont (o : Nat) (c : Conn) : Conn := appendSent c [IAC, DONT, o]

/-- send_will of comm.c: emit IAC WILL option. -/
def send_will (o : Nat) (c : Conn) : Conn := appendSent c [IAC, WILL, o]

/-- send_do of comm.c: emit IAC DO option. -/
def send_do (o : Nat) (c : Conn) : Conn := appendSent c [IAC, DO, o]

/-- find_no_bang of comm.c: the noecho flags of the most recent input_to
with IGNORE_BANG set, possibly the sessions own noecho, else 0. -/
def find_no_bang (c : Conn) : Nat :=
  if c.noecho &&& IGNORE_BANG ≠ 0 then c.noecho
  else match c.input_to.find? (fun ne => ne &&& IGNORE_BANG ≠ 0) with
       | some ne => ne
       | none => 0

/-- reply_to_do_echo of comm.c. -/
def reply_to_do_echo (o : Nat) (c : Conn) : Conn :=
  if c.noecho &&& NOECHO_MASK ≠ 0 then
    let c := if c.noecho &&& NOECHO = 0 then send_will o c else c
    {c with noecho := c.noecho ||| NOECHO_MASK}
  else send_wont o c

/-- reply_to_dont_echo of comm.c.  The C condition on the grant test reads
(noecho or complement of NOECHO_MASK) having all bits set, equivalent to
the whole NOECHO_MASK being contained in noecho.  The complement update on
the 8-bit field is written with 255 - NOECHO. -/
def reply_to_dont_echo (o : Nat) (c : Conn) : Conn :=
  if c.noecho &&& NOECHO_MASK ≠ 0 then
    let c := if c.noecho &&& NOECHO_MASK = NOECHO_MASK then send_wont o c else c
    {c with noecho := (c.noecho &&& (255 - NOECHO)) ||| NOECHO_ACK}
  else c

/-- reply_to_do_sga of comm.c. -/
def reply_to_do_sga (o : Nat) (c : Conn) : Conn :=
  if c.noecho &&& (NOECHO_MASK ||| CHARMODE_MASK) ≠ 0 then
    if ¬ c.supress_go_ahead then send_will o {c with supress_go_ahead := true} else c
  else send_wont o c

/-- reply_to_dont_sga of comm.c. -/
def reply_to_dont_sga (o : Nat) (c : Conn) : Conn :=
  if c.supress_go_ahead then send_wont o {c with supress_go_ahead := false} else c

/-- reply_to_will_sga of comm.c. -/
def reply_to_will_sga (o : Nat) (c : Conn) : Conn :=
  if c.noecho &&& CHARMODE_MASK ≠ 0 then
    let c := if c.noecho &&& CHARMODE = 0 then send_do o c else c
    {c with noecho := c.noecho ||| CHARMODE_MASK}
  else send_dont o c

/-- reply_to_wont_sga of comm.c (grant test and complement update as in
reply_to_dont_echo). -/
def reply_to_wont_sga (o : Nat) (c : Conn) : Conn :=
  if c.noecho &&& CHARMODE_MASK ≠ 0 then
    let c := if c.noecho &&& CHARMODE_MASK = CHARMODE_MASK then send_dont o c else c
    {c with noecho := (c.noecho &&& (255 - CHARMODE)) ||| CHARMODE_ACK}
  else c

/-- reply_h_telnet_neg of comm.c with the H_TELNET_NEG driver hook not
set (the default driver state modelled here): h_telnet_neg removes its
arguments and returns no value, so the default replies apply. -/
def reply_h_telnet_neg (o : Nat) (c : Conn) : Conn :=
  match c.tn_state with
  | TS_DO => send_wont o c
  | TS_WILL => send_dont o c
  | _ => c

/-- The options whose four table entries init_telopts points at
reply_h_telnet_neg. -/
def hook_delegated (o : Nat) : Bool :=
  [TELOPT_NEWENV, TELOPT_ENVIRON, TELOPT_XDISPLOC, TELOPT_LINEMODE,
   TELOPT_NAWS, TELOPT_TTYPE, TELOPT_TSPEED, TELOPT_EOR, EOR].contains o

/-- telopts_do as initialised by init_telopts: default send_wont,
ECHO handled by reply_to_do_echo, SGA by reply_to_do_sga, the registered
options delegated to the hook. -/
def telopts_do (o : Nat) (c : Conn) : Conn :=
  if o = TELOPT_ECHO then reply_to_do_echo o c
  else if o = TELOPT_SGA then reply_to_do_sga o c
  else if hook_delegated o then reply_h_telnet_neg o c
  else send_wont o c

/-- telopts_dont as initialised by init_telopts: default reply_nil. -/
def telopts_dont (o : Nat) (c : Conn) : Conn :=
  if o = TELOPT_ECHO then reply_to_dont_echo o c
  else if o = TELOPT_SGA then reply_to_dont_sga o c
  else if hook_delegated o then reply_h_telnet_neg o c
  else c

/-- telopts_will as initialised by init_telopts: default send_dont,
SGA handled by reply_to_will_sga, the registered options delegated. -/
def telopts_will (o : Nat) (c : Conn) : Conn :=
  if o = TELOPT_SGA then reply_to_will_sga o c
  else if hook_delegated o then reply_h_telnet_neg o c
  else send_dont o c

/-- telopts_wont as initialised by init_telopts: default reply_nil. -/
def telopts_wont (o : Nat) (c : Conn) : Conn :=
  if o = TELOPT_SGA then reply_to_wont_sga o c
  else if hook_delegated o then reply_h_telnet_neg o c
  else c

/-- Outcome of processing one fetched byte inside telnet_neg: the machine
either returns (done), continues at the do-while loop head, or continues
at the ts_data label. -/
inductive Step where
  | done (c : Conn)
  | contHead (c : Conn) (toIdx fmIdx : Nat)
  | contData (c : Conn) (toIdx fmIdx : Nat)

/-- The full_newline label of telnet_neg: a proper line end was found. -/
def full_newline (c : Conn) (toIdx fmIdx : Nat) : Conn :=
  let c := {c with tn_state := TS_READY, command_end := 0, tn_end := fmIdx}
  let p : Conn × Nat :=
    if c.noecho &&& CHARMODE_REQ ≠ 0 ∧
       (bufGet c.text 0 ≠ 33 ∨ find_no_bang c &&& IGNORE_BANG ≠ 0) then
      ({c with text := bufSet c.text toIdx 10}, toIdx + 1)
    else (c, toIdx)
  {p.1 with text := bufSet p.1.text p.2 0}

/-- The data_exhausted label of telnet_neg: input used up inside the
ts_data handling; cursors are synchronised and an over-long command is
returned as a partial command. -/
def data_exhausted (c : Conn) (toIdx : Nat) : Conn :=
  let c := {c with text_end := toIdx, tn_end := toIdx, command_end := toIdx}
  if MAX_TEXT ≤ c.text_end then
    let c := {c with text_end := 0, tn_end := 0}
    let c := if c.noecho &&& CHARMODE_REQ = 0 then {c with command_end := 0} else c
    {c with text := bufSet c.text toIdx 0, tn_state := TS_READY}
  else c

/-- The code after the do-while loop of telnet_neg: all data consumed
without a complete command. -/
def loop_exit (c : Conn) (toIdx : Nat) : Conn :=
  let c := {c with text_end := toIdx, tn_end := toIdx, command_end := toIdx}
  if c.text_end = MAX_TEXT then
    {c with text_end := 0, tn_end := 0, command_end := 0, tn_start := 0,
            command_start := 0, tn_state := TS_DATA}
  else c

/-- The data_mark label: on IAC DM during a Synch, probe the exception
state of the socket (modelled by oob_pending) and leave Synch mode if the
urgent data is gone. -/
def data_mark (c : Conn) : Conn :=
  if c.ts_data = TS_SYNCH then
    if ¬ c.oob_pending then {c with ts_data := TS_DATA} else c
  else c

/-- Shift the buffer region one position upwards: positions lo+1 up to hi
receive the value of their left neighbour, writing from the top as the C
loop in the charmode carriage-return insertion does. -/
def shift_right_one (t : Buf) (lo hi : Nat) : Buf :=
  if hi ≤ lo then t
  else shift_right_one (bufSet t hi (bufGet t (hi - 1))) lo (hi - 1)
termination_by hi

/-- The ts_iac label and TS_IAC case of telnet_neg. -/
def step_ts_iac (c : Conn) (toIdx fmIdx ch : Nat) : Step :=
  if ch = IAC then
    .contData {c with text := bufSet c.text toIdx ch, tn_state := TS_DATA} (toIdx + 1) fmIdx
  else if ch = WILL then .contHead {c with tn_state := TS_WILL} toIdx fmIdx
  else if ch = WONT then .contHead {c with tn_state := TS_WONT} toIdx fmIdx
  else if ch = DO then .contHead {c with tn_state := TS_DO} toIdx fmIdx
  else if ch = DONT then .contHead {c with tn_state := TS_DONT} toIdx fmIdx
  else if ch = SB then .contHead {c with tn_start := toIdx, tn_state := TS_SB} toIdx fmIdx
  else if ch = DM then
    let c := data_mark c
    .contHead {c with tn_state := c.ts_data} toIdx fmIdx
  else
    .contHead {c with tn_state := c.ts_data} toIdx fmIdx

/-- The ts_cr label of telnet_neg: complete a carriage return combination,
the next byte ch already fetched.  A byte other than newline is pushed
back.  In charmode the lone carriage return is inserted into the stream
(shifting the pending bytes up) unless the client in truth stayed in
linemode, in which case the line is completed. -/
def step_ts_cr (c : Conn) (toIdx fmIdx ch : Nat) : Step :=
  let fmIdx := if ch ≠ 10 then fmIdx - 1 else fmIdx
  if c.noecho &&& CHARMODE_REQ ≠ 0 ∧
     (bufGet c.text 0 ≠ 33 ∨ find_no_bang c &&& IGNORE_BANG ≠ 0) then
    let p : Conn × Nat :=
      if fmIdx = toIdx then
        let c := if c.text_end < MAX_TEXT - 1 then {c with text_end := c.text_end + 1} else c
        let fmIdx := fmIdx + 1
        ({c with text := shift_right_one c.text (fmIdx - 1) c.text_end}, fmIdx)
      else (c, fmIdx)
    let c := p.1
    let fmIdx := p.2
    if c.noecho &&& (CHARMODE_REQ ||| CHARMODE) ≠ CHARMODE_REQ then
      .contData {c with text := bufSet c.text toIdx 13, tn_state := TS_DATA} (toIdx + 1) fmIdx
    else
      .done (full_newline c toIdx fmIdx)
  else
    .done (full_newline c toIdx fmIdx)

/-- The TS_DATA case of telnet_neg (also the fall-through target of the
ts_data label): copy or interpret one byte of plain data. -/
def step_ts_data (c : Conn) (toIdx fmIdx ch : Nat) : Step :=
  if ch = IAC then .contHead {c with tn_state := TS_IAC} toIdx fmIdx
  else if ch = 8 ∨ ch = 127 then
    if c.noecho &&& CHARMODE_REQ = 0 then
      .contData c (if 0 < toIdx then toIdx - 1 else toIdx) fmIdx
    else if bufGet c.text 0 = 33 ∧ find_no_bang c &&& IGNORE_BANG = 0 then
      let c := if c.chars_ready < toIdx then
                 {appendSent c (sliceList c.text c.chars_ready toIdx) with chars_ready := toIdx}
               else c
      let p : Conn × Nat :=
        if 0 < toIdx then
          ({appendSent c [8, 32, 8] with chars_ready := c.chars_ready - 1}, toIdx - 1)
        else (c, toIdx)
      .contData p.1 p.2 fmIdx
    else
      .contData {c with text := bufSet c.text toIdx ch} (toIdx + 1) fmIdx
  else if ch = 0 then .contData c toIdx fmIdx
  else if ch = 13 then
    if c.text_end ≤ fmIdx then
      if c.noecho &&& CHARMODE_REQ = 0 ∨
         (bufGet c.text 0 = 33 ∧ find_no_bang c &&& IGNORE_BANG = 0) then
        .done (full_newline {c with gobble_char := 10} toIdx fmIdx)
      else
        .done (data_exhausted {c with tn_state := TS_CR} toIdx)
    else
      step_ts_cr c toIdx (fmIdx + 1) ((bufGet c.text fmIdx) % 256)
  else if ch = 10 then
    let c := if c.noecho &&& CHARMODE_REQ = 0 ∨
                (bufGet c.text 0 = 33 ∧ find_no_bang c &&& IGNORE_BANG = 0) then
               {c with gobble_char := 13}
             else c
    .done (full_newline c toIdx fmIdx)
  else
    .contData {c with text := bufSet c.text toIdx ch} (toIdx + 1) fmIdx

/-- The TS_SB_IAC case of telnet_neg: end of a subnegotiation.  The
collected bytes are handed to the telnet-negotiation hook (logged in
subnegs), the write cursor rewinds to tn_start, and a byte other than SE
is re-examined in the IAC logic. -/
def step_ts_sb_iac (c : Conn) (toIdx fmIdx ch : Nat) : Step :=
  if ch = IAC then
    .contHead {c with text := bufSet c.text toIdx ch, tn_state := TS_SB} (toIdx + 1) fmIdx
  else
    let size : Int := (toIdx : Int) - (c.tn_start : Int) - 1
    let c := if (ch = SE ∨ ch = SB) ∧ (size ≤ max_array_size ∨ max_array_size = 0) ∧ 0 ≤ size then
               {c with subnegs := c.subnegs ++
                  [(bufGet c.text c.tn_start, sliceList c.text (c.tn_start + 1) toIdx)]}
             else c
    let toIdx := c.tn_start
    if ch ≠ SE then step_ts_iac c toIdx fmIdx ch
    else .contHead {c with tn_state := c.ts_data} toIdx fmIdx

/-- The switch on tn_state at the head of the processing loop of
telnet_neg, with the current byte ch fetched. -/
def step_state_switch (c : Conn) (toIdx fmIdx ch : Nat) : Step :=
  match c.tn_state with
  | TS_READY => .done c
  | TS_DATA => step_ts_data c toIdx fmIdx ch
  | TS_CR => step_ts_cr c toIdx fmIdx ch
  | TS_IAC => step_ts_iac c toIdx fmIdx ch
  | TS_WILL =>
      let c := if ch < NTELOPTS then telopts_will ch c else send_dont ch c
      .contHead {c with tn_state := c.ts_data} toIdx fmIdx
  | TS_WONT =>
      let c := if ch < NTELOPTS then telopts_wont ch c else c
      .contHead {c with tn_state := c.ts_data} toIdx fmIdx
  | TS_DO =>
      let c := if ch < NTELOPTS then telopts_do ch c else send_wont ch c
      .contHead {c with tn_state := c.ts_data} toIdx fmIdx
  | TS_DONT =>
      let c := if ch < NTELOPTS then telopts_dont ch c else c
      .contHead {c with tn_state := c.ts_data} toIdx fmIdx
  | TS_SB =>
      if ch = IAC then .contHead {c with tn_state := TS_SB_IAC} toIdx fmIdx
      else .contHead {c with text := bufSet c.text toIdx ch} (toIdx + 1) fmIdx
  | TS_SB_IAC => step_ts_sb_iac c toIdx fmIdx ch
  | TS_SYNCH =>
      if ch = IAC then .contHead {c with tn_state := TS_IAC} toIdx fmIdx
      else if ch = DM then
        let c := data_mark c
        .contHead {c with tn_state := c.ts_data} toIdx fmIdx
      else .contHead c toIdx fmIdx
  | TS_INVALID => .contHead {c with tn_state := TS_DATA} toIdx fmIdx

/-- The two re-entry points of the processing loop of telnet_neg: the
do-while head (fetch a byte, switch on tn_state; when the data is used up
fall out to the loop exit) and the ts_data label (fetch a byte, continue
in the TS_DATA logic; when the data is used up go to data_exhausted). -/
inductive Phase where
  | head
  | datacont
deriving Repr, DecidableEq

/-- The processing loop of telnet_neg.  The fuel argument only bounds the
number of bytes fetched; every byte consumed costs one unit, so any fuel
of at least text_end plus the number of push-backs completes the loop. -/
def tnRun : Nat → Phase → Conn → Nat → Nat → Conn
  | 0, _, c, _, _ => c
  | fuel + 1, Phase.head, c, toIdx, fmIdx =>
    if fmIdx < c.text_end then
      match step_state_switch c toIdx (fmIdx + 1) ((bufGet c.text fmIdx) % 256) with
      | .done r => r
      | .contHead r t f => tnRun fuel Phase.head r t f
      | .contData r t f => tnRun fuel Phase.datacont r t f
    else loop_exit c toIdx
  | fuel + 1, Phase.datacont, c, toIdx, fmIdx =>
    if fmIdx < c.text_end then
      match step_ts_data c toIdx (fmIdx + 1) ((bufGet c.text fmIdx) % 256) with
      | .done r => r
      | .contHead r t f => tnRun fuel Phase.head r t f
      | .contData r t f => tnRun fuel Phase.datacont r t f
    else data_exhausted c toIdx

/-- Ample fuel for one telnet_neg call: each loop iteration consumes one
raw byte, and each push-back is paired with a consumed carriage return. -/
def FUEL : Nat := 2 * MAX_TEXT + 16

/-- telnet_neg of comm.c: gobble a split line-end partner byte if
requested, then run the processing loop from the stored cursors. -/
def telnet_neg (c : Conn) : Conn :=
  let fm := c.tn_end
  if c.text_end ≤ fm then
    {c with text_end := c.command_end, tn_end := c.command_end}
  else if c.gobble_char ≠ 0 then
    let fm := if (bufGet c.text fm) % 256 = c.gobble_char then fm + 1 else fm
    let c := {c with gobble_char := 0}
    if c.text_end ≤ fm then
      {c with text_end := c.command_end, tn_end := c.command_end}
    else tnRun FUEL Phase.head c c.command_end fm
  else tnRun FUEL Phase.head c c.command_end fm

/-- Write a list of received bytes into the buffer starting at index i
(the socket_read of get_message deposits at text + text_end). -/
def write_bytes (t : Buf) (i : Nat) : List Nat → Buf
  | [] => t
  | b :: bs => write_bytes (bufSet t i b) (i + 1) bs

/-- One network read followed by the telnet machine, as done by
get_message: the bytes land at text_end and telnet_neg is run. -/
def receive_bytes (c : Conn) (bs : List Nat) : Conn :=
  telnet_neg {c with text := write_bytes c.text c.text_end bs,
                     text_end := c.text_end + bs.length}

/-- The NUL-terminated string at the start of the buffer (what the strcpy
of get_message copies into buff when the machine is TS_READY). -/
def cstr_aux (t : Buf) : Nat → Nat → List Nat
  | _, 0 => []
  | i, fuel + 1 =>
    let b := bufGet t i
    if b = 0 then [] else b :: cstr_aux t (i + 1) fuel

/-- The completed command text of a session. -/
def command_text (c : Conn) : List Nat := cstr_aux c.text 0 (MAX_TEXT + 2)

/-- The linemode command consumption of get_message: when the telnet
machine is TS_READY the command is copied out, the machine is reset to
TS_DATA and telnet_neg is re-run, possibly producing the next command. -/
def deliver_command (c : Conn) : Option (List Nat) × Conn :=
  if c.tn_state = TS_READY then
    (some (command_text c), telnet_neg {c with tn_state := TS_DATA})
  else (none, c)

/-- A freshly accepted session: empty buffer, all cursors zero, telnet
machine in TS_DATA. -/
def fresh_conn : Conn :=
  { text := fun _ => 0
  , tn_state := TS_DATA
  , ts_data := TS_DATA
  , save_tn_state := TS_INVALID
  , gobble_char := 0
  , noecho := 0
  , command_start := 0
  , command_end := 0
  , tn_start := 0
  , tn_end := 0
  , text_end := 0
  , chars_ready := 0
  , supress_go_ahead := false
  , input_to := []
  , oob_pending := false
  , sent := []
  , subnegs := [] }


/-! Basic lemmas about the buffer model. -/

theorem bufGet_bufSet_self (t : Buf) (i v : Nat) : bufGet (bufSet t i v) i = v := by
  simp [bufGet, bufSet]

theorem bufGet_bufSet_ne (t : Buf) (i v j : Nat) (h : j ≠ i) :
    bufGet (bufSet t i v) j = bufGet t j := by
  simp [bufGet, bufSet, h]

theorem bufSet_bufGet_self (t : Buf) (i : Nat) : bufSet t i (bufGet t i) = t := by
  funext j
  by_cases h : j = i <;> simp [bufSet, bufGet, h]

theorem bufGet_write_bytes_lt (t : Buf) (bs : List Nat) (i j : Nat) (h : j < i) :
    bufGet (write_bytes t i bs) j = bufGet t j := by
  induction bs generalizing t i with
  | nil => rfl
  | cons b bs ih =>
      rw [write_bytes, ih _ _ (Nat.lt_succ_of_lt h), bufGet_bufSet_ne]
      omega

theorem bufGet_write_bytes_ge (t : Buf) (bs : List Nat) (i j : Nat)
    (h : i + bs.length ≤ j) : bufGet (write_bytes t i bs) j = bufGet t j := by
  induction bs generalizing t i with
  | nil => rfl
  | cons b bs ih =>
      rw [write_bytes, ih]
      · rw [bufGet_bufSet_ne]
        simp only [List.length_cons] at h
        omega
      · simp only [List.length_cons] at h
        omega

theorem bufGet_write_bytes_in (t : Buf) (bs : List Nat) (i k : Nat)
    (h : k < bs.length) : bufGet (write_bytes t i bs) (i + k) = bs.getD k 0 := by
  induction bs generalizing t i k with
  | nil => simp at h
  | cons b bs ih =>
      match k with
      | 0 =>
          rw [write_bytes, bufGet_write_bytes_lt _ _ _ _ (by omega)]
          simpa using bufGet_bufSet_self t i b
      | k + 1 =>
          have harith : i + (k + 1) = (i + 1) + k := by omega
          have hk : k < bs.length := by
            simp only [List.length_cons] at h
            omega
          rw [write_bytes, harith, ih (bufSet t i b) (i + 1) k hk]
          rfl

/-! Lemmas about the processing loop on plain data bytes. -/

/-- A plain data byte: no telnet or line-end interpretation applies. -/
def PlainByte (b : Nat) : Prop :=
  b < 256 ∧ b ≠ 0 ∧ b ≠ 8 ∧ b ≠ 10 ∧ b ≠ 13 ∧ b ≠ 127 ∧ b ≠ 255

instance (b : Nat) : Decidable (PlainByte b) :=
  inferInstanceAs (Decidable (b < 256 ∧ b ≠ 0 ∧ b ≠ 8 ∧ b ≠ 10 ∧ b ≠ 13 ∧ b ≠ 127 ∧ b ≠ 255))

theorem step_ts_data_plain (c : Conn) (toIdx fmIdx ch : Nat) (h : PlainByte ch) :
    step_ts_data c toIdx fmIdx ch
      = .contData {c with text := bufSet c.text toIdx ch} (toIdx + 1) fmIdx := by
  obtain ⟨h1, h2, h3, h4, h5, h6, h7⟩ := h
  rw [step_ts_data]
  simp [IAC, h2, h3, h4, h5, h6, h7]

theorem tnRun_datacont_step (fuel : Nat) (c : Conn) (i : Nat)
    (hlt : i < c.text_end) (hch : PlainByte (bufGet c.text i)) :
    tnRun (fuel + 1) Phase.datacont c i i
      = tnRun fuel Phase.datacont c (i + 1) (i + 1) := by
  rw [tnRun, if_pos hlt, Nat.mod_eq_of_lt hch.1,
      step_ts_data_plain _ _ _ _ hch, bufSet_bufGet_self]

theorem tnRun_head_step (fuel : Nat) (c : Conn) (i : Nat)
    (hst : c.tn_state = TS_DATA)
    (hlt : i < c.text_end) (hch : PlainByte (bufGet c.text i)) :
    tnRun (fuel + 1) Phase.head c i i
      = tnRun fuel Phase.datacont c (i + 1) (i + 1) := by
  rw [tnRun, if_pos hlt, Nat.mod_eq_of_lt hch.1, step_state_switch, hst]
  rw [step_ts_data_plain _ _ _ _ hch, bufSet_bufGet_self]

theorem tnRun_datacont_march (k : Nat) (fuel : Nat) (c : Conn) (i : Nat)
    (hplain : ∀ j, i ≤ j → j < i + k → PlainByte (bufGet c.text j))
    (hle : i + k ≤ c.text_end) :
    tnRun (k + fuel + 1) Phase.datacont c i i
      = tnRun (fuel + 1) Phase.datacont c (i + k) (i + k) := by
  induction k generalizing i with
  | zero =>
      have h0 : 0 + fuel + 1 = fuel + 1 := by omega
      rw [h0]
      norm_num
  | succ k ih =>
      have hstep := tnRun_datacont_step (k + fuel + 1) c i (by omega)
        (hplain i (Nat.le_refl i) (by omega))
      have : k + 1 + fuel + 1 = (k + fuel + 1) + 1 := by omega
      rw [this, hstep, ih (i + 1) (fun j hj1 hj2 => hplain j (by omega) (by omega)) (by omega)]
      congr 1 <;> omega

theorem tnRun_datacont_exhaust (fuel : Nat) (c : Conn) (toIdx fmIdx : Nat)
    (h : c.text_end ≤ fmIdx) :
    tnRun (fuel + 1) Phase.datacont c toIdx fmIdx = data_exhausted c toIdx := by
  rw [tnRun, if_neg (by omega)]


theorem step_ts_data_cr_end (c : Conn) (toIdx fmIdx : Nat)
    (hend : c.text_end ≤ fmIdx) (hlm : c.noecho &&& CHARMODE_REQ = 0) :
    step_ts_data c toIdx fmIdx 13
      = .done (full_newline {c with gobble_char := 10} toIdx fmIdx) := by
  rw [step_ts_data]
  rw [if_neg (by simp [IAC]), if_neg (by omega), if_neg (by omega), if_pos rfl,
      if_pos hend, if_pos (Or.inl hlm)]

theorem full_newline_linemode (c : Conn) (toIdx fmIdx : Nat)
    (hlm : c.noecho &&& CHARMODE_REQ = 0) :
    full_newline c toIdx fmIdx
      = {c with tn_state := TS_READY, command_end := 0, tn_end := fmIdx,
                text := bufSet c.text toIdx 0} := by
  rw [full_newline]
  split
  · next hcond => exact absurd hcond.1 (by simp [hlm])
  · rfl

theorem tnRun_datacont_cr (fuel : Nat) (c : Conn) (i : Nat)
    (hfm : i < c.text_end) (hb : bufGet c.text i = 13)
    (hend : c.text_end ≤ i + 1) (hlm : c.noecho &&& CHARMODE_REQ = 0) :
    tnRun (fuel + 1) Phase.datacont c i i
      = full_newline {c with gobble_char := 10} i (i + 1) := by
  rw [tnRun, if_pos hfm, hb]
  norm_num
  rw [step_ts_data_cr_end c i (i + 1) hend hlm]

theorem tnRun_head_cr (fuel : Nat) (c : Conn) (i : Nat)
    (hst : c.tn_state = TS_DATA)
    (hfm : i < c.text_end) (hb : bufGet c.text i = 13)
    (hend : c.text_end ≤ i + 1) (hlm : c.noecho &&& CHARMODE_REQ = 0) :
    tnRun (fuel + 1) Phase.head c i i
      = full_newline {c with gobble_char := 10} i (i + 1) := by
  rw [tnRun, if_pos hfm, hb]
  norm_num
  rw [step_state_switch, hst, step_ts_data_cr_end c i (i + 1) hend hlm]
  rfl

/-- Running the machine from a fresh buffer over n plain bytes followed by
a carriage return that ends the available data: in linemode the command is
completed, the gobble byte is armed for the possible newline of a split
CR LF, and the cursors take the values assigned by full_newline. -/
theorem tnRun_plain_then_cr (fuel : Nat) (c : Conn) (n : Nat)
    (hst : c.tn_state = TS_DATA)
    (hend : c.text_end = n + 1)
    (hplain : ∀ j, j < n → PlainByte (bufGet c.text j))
    (hcr : bufGet c.text n = 13)
    (hlm : c.noecho &&& CHARMODE_REQ = 0) :
    tnRun (n + fuel + 2) Phase.head c 0 0
      = {c with gobble_char := 10, tn_state := TS_READY, command_end := 0,
                tn_end := n + 1, text := bufSet c.text n 0} := by
  have hfull : full_newline {c with gobble_char := 10} n (n + 1)
      = {c with gobble_char := 10, tn_state := TS_READY, command_end := 0,
                tn_end := n + 1, text := bufSet c.text n 0} := by
    rw [full_newline_linemode _ _ _ (by simpa using hlm)]
  cases n with
  | zero =>
      have h1 : 0 + fuel + 2 = (fuel + 1) + 1 := by omega
      rw [h1, tnRun_head_cr (fuel + 1) c 0 hst (by omega) hcr (by omega) hlm, hfull]
  | succ k =>
      have h1 : k + 1 + fuel + 2 = (k + (fuel + 1) + 1) + 1 := by omega
      rw [h1, tnRun_head_step _ c 0 hst (by omega) (hplain 0 (by omega))]
      have h2 : (0 : Nat) + 1 = 1 := rfl
      rw [h2, tnRun_datacont_march k (fuel + 1) c 1
            (fun j hj1 hj2 => hplain j (by omega)) (by omega)]
      have h3 : 1 + k = k + 1 := by omega
      rw [h3, tnRun_datacont_cr (fuel + 1) c (k + 1) (by omega) hcr (by omega) hlm, hfull]

/-- Running the machine from a fresh buffer over plain bytes that fill the
data without any line end: the loop falls out at data_exhausted. -/
theorem tnRun_plain_all (fuel : Nat) (c : Conn) (n : Nat)
    (hst : c.tn_state = TS_DATA)
    (hend : c.text_end = n)
    (hn : 1 ≤ n)
    (hplain : ∀ j, j < n → PlainByte (bufGet c.text j)) :
    tnRun (n + fuel + 1) Phase.head c 0 0 = data_exhausted c n := by
  obtain ⟨k, rfl⟩ : ∃ k, n = k + 1 := ⟨n - 1, by omega⟩
  have h1 : k + 1 + fuel + 1 = (k + fuel + 1) + 1 := by omega
  rw [h1, tnRun_head_step _ c 0 hst (by omega) (hplain 0 (by omega))]
  have h2 : (0 : Nat) + 1 = 1 := rfl
  rw [h2, tnRun_datacont_march k fuel c 1
        (fun j hj1 hj2 => hplain j (by omega)) (by omega)]
  have h3 : 1 + k = k + 1 := by omega
  rw [h3, tnRun_datacont_exhaust fuel c (k + 1) (k + 1) (by omega)]

theorem telnet_neg_empty (c : Conn) (h : c.text_end ≤ c.tn_end) :
    telnet_neg c = {c with text_end := c.command_end, tn_end := c.command_end} := by
  rw [telnet_neg, if_pos h]

theorem telnet_neg_run (c : Conn) (h1 : c.tn_end < c.text_end) (h2 : c.gobble_char = 0) :
    telnet_neg c = tnRun FUEL Phase.head c c.command_end c.tn_end := by
  rw [telnet_neg, if_neg (by omega), h2]
  simp

theorem telnet_neg_gobble_all (c : Conn) (h1 : c.tn_end < c.text_end)
    (h2 : c.gobble_char ≠ 0) (h3 : (bufGet c.text c.tn_end) % 256 = c.gobble_char)
    (h4 : c.text_end ≤ c.tn_end + 1) :
    telnet_neg c
      = {c with gobble_char := 0, text_end := c.command_end, tn_end := c.command_end} := by
  rw [telnet_neg, if_neg (by omega), if_pos h2, if_pos h3, if_pos h4]

/-- The NUL-terminated prefix of the buffer equals a given NUL-free list
when the buffer holds precisely its bytes followed by a NUL. -/
theorem cstr_aux_spec (t : Buf) (l : List Nat) (i fuel : Nat)
    (hfuel : l.length < fuel)
    (hvals : ∀ k, k < l.length → bufGet t (i + k) = l.getD k 0)
    (hnz : ∀ b ∈ l, b ≠ 0)
    (hzero : bufGet t (i + l.length) = 0) :
    cstr_aux t i fuel = l := by
  induction l generalizing i fuel with
  | nil =>
      match fuel, hfuel with
      | f + 1, _ =>
          rw [cstr_aux]
          rw [if_pos (by simpa using hzero)]
  | cons b bs ih =>
      match fuel, hfuel with
      | f + 1, hf =>
          have hb : bufGet t i = b := by simpa using hvals 0 (by simp)
          rw [cstr_aux]
          rw [if_neg (by rw [hb]; exact hnz b (by simp)), hb]
          congr 1
          apply ih
          · simpa using Nat.lt_of_succ_lt_succ hf
          · intro k hk
            have := hvals (k + 1) (by simpa using Nat.succ_lt_succ hk)
            have harith : i + (k + 1) = (i + 1) + k := by omega
            rw [harith] at this
            simpa using this
          · intro x hx
            exact hnz x (by simp [hx])
          · have harith : i + (b :: bs).length = (i + 1) + bs.length := by simp; omega
            rw [harith] at hzero
            exact hzero


/-- The getD value of a replicate list. -/
theorem getD_replicate (n a j : Nat) (h : j < n) : (List.replicate n a).getD j 0 = a := by
  induction n generalizing j with
  | zero => omega
  | succ n ih =>
      match j with
      | 0 => rfl
      | j + 1 => exact ih j (by omega)

/-- The cursor ordering chain claimed by the specification for the input
buffer of a session. -/
def cursor_chain (c : Conn) : Prop :=
  c.command_start ≤ c.command_end ∧ c.command_end ≤ c.tn_end ∧
    c.tn_end ≤ c.text_end ∧ c.text_end ≤ MAX_TEXT

instance (c : Conn) : Decidable (cursor_chain c) :=
  inferInstanceAs (Decidable (_ ∧ _ ∧ _ ∧ _))

/-- Evaluation of data_exhausted in the charmode overflow case. -/
theorem data_exhausted_overflow (c : Conn) (toIdx : Nat)
    (h : MAX_TEXT ≤ toIdx) (hcm : c.noecho &&& CHARMODE_REQ ≠ 0) :
    data_exhausted c toIdx
      = {c with text_end := 0, tn_end := 0, command_end := toIdx,
                text := bufSet c.text toIdx 0, tn_state := TS_READY} := by
  simp only [data_exhausted]
  rw [if_pos (show MAX_TEXT ≤ toIdx from h)]
  rw [if_neg hcm]

/-- A charmode session whose buffer fills completely with plain bytes hits
the super-long-command branch of data_exhausted: text_end and tn_end are
reset to 0 but command_end keeps the full length. -/
theorem receive_overflow_charmode (c : Conn) (bs : List Nat)
    (hst : c.tn_state = TS_DATA) (hg : c.gobble_char = 0)
    (hte : c.text_end = 0) (hce : c.command_end = 0) (htn : c.tn_end = 0)
    (hcm : c.noecho &&& CHARMODE_REQ ≠ 0)
    (hlen : bs.length = MAX_TEXT)
    (hplain : ∀ b ∈ bs, PlainByte b) :
    (receive_bytes c bs).command_end = MAX_TEXT ∧ (receive_bytes c bs).tn_end = 0 ∧
      (receive_bytes c bs).text_end = 0 ∧
      (receive_bytes c bs).command_start = c.command_start := by
  obtain ⟨tx, st, tsd, sv, gb, ne, cs, ce, tns, tne, te, cr, sga, ito, oob, snt, sbn⟩ := c
  simp only at hst hg hte hce htn hcm ⊢
  subst hst hg hte hce htn
  rw [receive_bytes]
  simp only []
  have hrun := telnet_neg_run
    ⟨write_bytes tx 0 bs, TS_DATA, tsd, sv, 0, ne, cs, 0, tns, 0, 0 + bs.length,
      cr, sga, ito, oob, snt, sbn⟩
    (by simp [hlen, MAX_TEXT]) (by simp)
  simp only [] at hrun
  rw [hrun]
  have hF : FUEL = MAX_TEXT + (MAX_TEXT + 15) + 1 := by norm_num [FUEL, MAX_TEXT]
  have hplain2 : ∀ j, j < MAX_TEXT →
      PlainByte (bufGet (write_bytes tx 0 bs) j) := by
    intro j hj
    have hj2 : j < bs.length := by omega
    have hb := bufGet_write_bytes_in tx bs 0 j hj2
    simp only [Nat.zero_add] at hb
    rw [hb]
    have : bs.getD j 0 ∈ bs := by
      rw [List.getD_eq_getElem bs 0 hj2]
      exact List.getElem_mem hj2
    exact hplain _ this
  have hrun2 := tnRun_plain_all (MAX_TEXT + 15)
    ⟨write_bytes tx 0 bs, TS_DATA, tsd, sv, 0, ne, cs, 0, tns, 0, 0 + bs.length,
      cr, sga, ito, oob, snt, sbn⟩
    MAX_TEXT rfl (by simp [hlen]) (by norm_num [MAX_TEXT]) hplain2
  rw [hF, hrun2, data_exhausted_overflow _ _ (le_refl _) (by simpa using hcm)]
  simp

/-- C3 counterexample: on a session in charmode (CHARMODE_REQ set) whose
buffer fills with 2048 plain bytes and no terminator, one run of the
Telnet machine leaves command_end = 2048 above tn_end = text_end = 0, so
the claimed cursor chain does not hold after this run. -/
theorem C3_counterexample :
    ¬ cursor_chain (receive_bytes {fresh_conn with noecho := CHARMODE_REQ}
        (List.replicate MAX_TEXT 97)) := by
  have hkey := receive_overflow_charmode {fresh_conn with noecho := CHARMODE_REQ}
    (List.replicate MAX_TEXT 97) rfl rfl rfl rfl rfl (by decide)
    (List.length_replicate _ _)
    (by
      intro b hb
      have : b = 97 := List.eq_of_mem_replicate hb
      rw [this]
      decide)
  intro hchain
  obtain ⟨h1, h2, h3, h4⟩ := hchain
  rw [hkey.1, hkey.2.1] at h2
  norm_num [MAX_TEXT] at h2


theorem getD_append_lt (l1 l2 : List Nat) (j : Nat) (h : j < l1.length) :
    (l1 ++ l2).getD j 0 = l1.getD j 0 := by
  induction l1 generalizing j with
  | nil => simp at h
  | cons a l ih =>
      match j with
      | 0 => rfl
      | j + 1 => exact ih j (by simpa using h)

theorem getD_append_len (l1 : List Nat) (x : Nat) (l2 : List Nat) :
    (l1 ++ x :: l2).getD l1.length 0 = x := by
  induction l1 with
  | nil => rfl
  | cons a l ih => simpa using ih

/-- C2: a session in linemode with a quiet buffer that receives some plain
text ending in a bare carriage return yields exactly one completed
command, holding the text before the CR; a later read holding just the
split-off newline is gobbled and yields no second command. -/
theorem C2_crlf_split_one_command (cmd : List Nat) (c : Conn)
    (hst : c.tn_state = TS_DATA) (hg : c.gobble_char = 0)
    (hte : c.text_end = 0) (hce : c.command_end = 0) (htn : c.tn_end = 0)
    (hlm : c.noecho &&& CHARMODE_REQ = 0)
    (hlen : cmd.length + 1 ≤ MAX_TEXT)
    (hplain : ∀ b ∈ cmd, PlainByte b) :
    (deliver_command (receive_bytes c (cmd ++ [13]))).1 = some cmd
    ∧ (deliver_command (receive_bytes c (cmd ++ [13]))).2.tn_state = TS_DATA
    ∧ deliver_command (receive_bytes (deliver_command (receive_bytes c (cmd ++ [13]))).2 [10])
        = (none, receive_bytes (deliver_command (receive_bytes c (cmd ++ [13]))).2 [10]) := by
  obtain ⟨tx, st, tsd, sv, gb, ne, cs, ce, tns, tne, te, cr, sga, ito, oob, snt, sbn⟩ := c
  simp only at hst hg hte hce htn hlm ⊢
  subst hst hg hte hce htn
  have hn1 : cmd.length + 1 ≤ 2048 := by simpa [MAX_TEXT] using hlen
  have hlen2 : (cmd ++ [13]).length = cmd.length + 1 := by simp
  -- the byte facts about the filled buffer
  have hbyte_j : ∀ j, j < cmd.length →
      bufGet (write_bytes tx 0 (cmd ++ [13])) j = cmd.getD j 0 := by
    intro j hj
    have hb := bufGet_write_bytes_in tx (cmd ++ [13]) 0 j (by simp; omega)
    simp only [Nat.zero_add] at hb
    rw [hb, getD_append_lt _ _ _ hj]
  have hplain2 : ∀ j, j < cmd.length →
      PlainByte (bufGet (write_bytes tx 0 (cmd ++ [13])) j) := by
    intro j hj
    rw [hbyte_j j hj]
    have : cmd.getD j 0 ∈ cmd := by
      rw [List.getD_eq_getElem cmd 0 hj]
      exact List.getElem_mem hj
    exact hplain _ this
  have hbyte_cr : bufGet (write_bytes tx 0 (cmd ++ [13])) cmd.length = 13 := by
    have hb := bufGet_write_bytes_in tx (cmd ++ [13]) 0 cmd.length (by simp)
    simp only [Nat.zero_add] at hb
    rw [hb, getD_append_len]
  -- run of the first read
  have hrun := telnet_neg_run
    ⟨write_bytes tx 0 (cmd ++ [13]), TS_DATA, tsd, sv, 0, ne, cs, 0, tns, 0,
      0 + (cmd ++ [13]).length, cr, sga, ito, oob, snt, sbn⟩
    (by simp) (by simp)
  simp only [] at hrun
  have hF : FUEL = cmd.length + (FUEL - (cmd.length + 2)) + 2 := by
    norm_num [FUEL, MAX_TEXT]
    omega
  have hmachine := tnRun_plain_then_cr (FUEL - (cmd.length + 2))
    ⟨write_bytes tx 0 (cmd ++ [13]), TS_DATA, tsd, sv, 0, ne, cs, 0, tns, 0,
      0 + (cmd ++ [13]).length, cr, sga, ito, oob, snt, sbn⟩
    cmd.length rfl (by simp) hplain2 hbyte_cr (by simpa using hlm)
  have hs1 : receive_bytes
      (⟨tx, TS_DATA, tsd, sv, 0, ne, cs, 0, tns, 0, 0, cr, sga, ito, oob, snt, sbn⟩ : Conn)
      (cmd ++ [13])
      = ⟨bufSet (write_bytes tx 0 (cmd ++ [13])) cmd.length 0, TS_READY, tsd, sv, 10,
          ne, cs, 0, tns, cmd.length + 1, 0 + (cmd ++ [13]).length, cr, sga, ito, oob,
          snt, sbn⟩ := by
    rw [receive_bytes]
    simp only []
    rw [hrun, hF, hmachine]
  rw [hs1]
  -- consumption of the one completed command
  have hcmdtext : command_text
      (⟨bufSet (write_bytes tx 0 (cmd ++ [13])) cmd.length 0, TS_READY, tsd, sv, 10,
          ne, cs, 0, tns, cmd.length + 1, 0 + (cmd ++ [13]).length, cr, sga, ito, oob,
          snt, sbn⟩ : Conn) = cmd := by
    rw [command_text]
    show cstr_aux (bufSet (write_bytes tx 0 (cmd ++ [13])) cmd.length 0) 0 (MAX_TEXT + 2) = cmd
    apply cstr_aux_spec
    · simp only [MAX_TEXT]
      omega
    · intro k hk
      rw [Nat.zero_add, bufGet_bufSet_ne _ _ _ _ (by omega), hbyte_j k hk]
    · intro b hb
      exact ((hplain b hb).2.1)
    · rw [Nat.zero_add, bufGet_bufSet_self]
  have hs2 : deliver_command
      (⟨bufSet (write_bytes tx 0 (cmd ++ [13])) cmd.length 0, TS_READY, tsd, sv, 10,
          ne, cs, 0, tns, cmd.length + 1, 0 + (cmd ++ [13]).length, cr, sga, ito, oob,
          snt, sbn⟩ : Conn)
      = (some cmd,
         ⟨bufSet (write_bytes tx 0 (cmd ++ [13])) cmd.length 0, TS_DATA, tsd, sv, 10,
          ne, cs, 0, tns, 0, 0, cr, sga, ito, oob, snt, sbn⟩) := by
    rw [deliver_command, if_pos rfl, hcmdtext]
    rw [telnet_neg_empty _ (by simp [hlen2])]
  rw [hs2]
  refine ⟨rfl, rfl, ?_⟩
  -- the split-off newline of the second read is gobbled
  have hw10 : write_bytes
      (bufSet (write_bytes tx 0 (cmd ++ [13])) cmd.length 0) 0 [10]
      = bufSet (bufSet (write_bytes tx 0 (cmd ++ [13])) cmd.length 0) 0 10 := rfl
  have hs3 : receive_bytes
      (⟨bufSet (write_bytes tx 0 (cmd ++ [13])) cmd.length 0, TS_DATA, tsd, sv, 10,
          ne, cs, 0, tns, 0, 0, cr, sga, ito, oob, snt, sbn⟩ : Conn) [10]
      = ⟨bufSet (bufSet (write_bytes tx 0 (cmd ++ [13])) cmd.length 0) 0 10, TS_DATA,
          tsd, sv, 0, ne, cs, 0, tns, 0, 0, cr, sga, ito, oob, snt, sbn⟩ := by
    rw [receive_bytes]
    simp only []
    rw [hw10]
    rw [telnet_neg_gobble_all _ (by simp) (by simp) (by rw [bufGet_bufSet_self]) (by simp)]
  rw [hs3, deliver_command, if_neg (by simp)]


theorem tnRun_head_unfold (fuel : Nat) (c : Conn) (toIdx fmIdx : Nat)
    (h : fmIdx < c.text_end) :
    tnRun (fuel + 1) Phase.head c toIdx fmIdx
      = (match step_state_switch c toIdx (fmIdx + 1) ((bufGet c.text fmIdx) % 256) with
         | .done r => r
         | .contHead r t f => tnRun fuel Phase.head r t f
         | .contData r t f => tnRun fuel Phase.datacont r t f) := by
  rw [tnRun, if_pos h]

theorem tnRun_head_exit (fuel : Nat) (c : Conn) (toIdx fmIdx : Nat)
    (h : c.text_end ≤ fmIdx) :
    tnRun (fuel + 1) Phase.head c toIdx fmIdx = loop_exit c toIdx := by
  rw [tnRun, if_neg (by omega)]

/-- C1 counterexample: a fresh session (no echo suppression requested)
receiving IAC WILL ECHO answers with IAC DONT ECHO (255 254 1), not with
IAC WONT ECHO (255 252 1) as the claim states: init_telopts leaves
telopts_will[TELOPT_ECHO] at the default send_dont. -/
theorem C1_counterexample :
    (receive_bytes fresh_conn [IAC, WILL, TELOPT_ECHO]).sent = [IAC, DONT, TELOPT_ECHO]
    ∧ (receive_bytes fresh_conn [IAC, WILL, TELOPT_ECHO]).sent ≠ [IAC, WONT, TELOPT_ECHO] := by
  constructor
  · decide
  · decide

/-- C1 amended: for every quiescent session with the noecho request bits
clear, consuming the three bytes IAC WILL ECHO makes the server send
exactly the three bytes IAC DONT ECHO. -/
theorem C1_will_echo_reply (c : Conn)
    (hst : c.tn_state = TS_DATA) (hts : c.ts_data = TS_DATA) (hg : c.gobble_char = 0)
    (hte : c.text_end = 0) (hce : c.command_end = 0) (htn : c.tn_end = 0)
    (hsent : c.sent = [])
    (hreq : c.noecho &&& (NOECHO_REQ ||| CHARMODE_REQ) = 0) :
    (receive_bytes c [IAC, WILL, TELOPT_ECHO]).sent = [IAC, DONT, TELOPT_ECHO] := by
  obtain ⟨tx, st, tsd, sv, gb, ne, cs, ce, tns, tne, te, cr, sga, ito, oob, snt, sbn⟩ := c
  simp only at hst hts hg hte hce htn hsent hreq ⊢
  subst hst hts hg hte hce htn hsent
  rfl

/-- C1 witness: the amended reply theorem applied to the fresh session. -/
theorem C1_witness :
    (receive_bytes fresh_conn [IAC, WILL, TELOPT_ECHO]).sent = [IAC, DONT, TELOPT_ECHO] :=
  C1_will_echo_reply fresh_conn rfl rfl rfl rfl rfl rfl rfl (by decide)


/-- C2 witness: the split CR LF theorem applied to the command "hi" on a
fresh session. -/
theorem C2_witness :
    (deliver_command (receive_bytes fresh_conn ([104, 105] ++ [13]))).1 = some [104, 105]
    ∧ (deliver_command (receive_bytes fresh_conn ([104, 105] ++ [13]))).2.tn_state = TS_DATA
    ∧ deliver_command (receive_bytes
          (deliver_command (receive_bytes fresh_conn ([104, 105] ++ [13]))).2 [10])
        = (none, receive_bytes
            (deliver_command (receive_bytes fresh_conn ([104, 105] ++ [13]))).2 [10]) :=
  C2_crlf_split_one_command [104, 105] fresh_conn rfl rfl rfl rfl rfl rfl
    (by norm_num [MAX_TEXT]) (by decide)

/-! Preservation of the cursor chain by the telnet machine in linemode. -/

/-- The ts_data field only ever holds the plain-data or the Synch state. -/
def TsDataOk (c : Conn) : Prop := c.ts_data = TS_DATA ∨ c.ts_data = TS_SYNCH

/-- The invariant carried through the processing loop of telnet_neg for a
linemode session: the stored cursors still satisfy the chain (they are
only rewritten on return), the session stays in linemode with a one-byte
noecho field, the write cursor never passes the read cursor, and inside a
subnegotiation the rewind point lies below the write cursor. -/
def RunInv (c : Conn) (toIdx fmIdx : Nat) : Prop :=
  c.command_start = 0 ∧ c.noecho &&& CHARMODE_REQ = 0 ∧ c.noecho < 256 ∧
  TsDataOk c ∧ cursor_chain c ∧ toIdx ≤ fmIdx ∧ fmIdx ≤ c.text_end ∧
  ((c.tn_state = TS_SB ∨ c.tn_state = TS_SB_IAC) → c.tn_start ≤ toIdx)

/-- Entry form of the invariant, phrased on the stored cursors of a
session about to run the telnet machine. -/
def LinemodeInv (c : Conn) : Prop :=
  c.command_start = 0 ∧ c.noecho &&& CHARMODE_REQ = 0 ∧ c.noecho < 256 ∧
  TsDataOk c ∧ cursor_chain c ∧
  ((c.tn_state = TS_SB ∨ c.tn_state = TS_SB_IAC) → c.tn_start ≤ c.command_end)

/- Bit facts about the one-byte noecho field, by enumeration. -/

set_option maxRecDepth 4000 in
theorem byte_or_noecho_mask (a : Nat) (h : a < 256) :
    (a ||| NOECHO_MASK) &&& CHARMODE_REQ = a &&& CHARMODE_REQ ∧ (a ||| NOECHO_MASK) < 256 := by
  revert a
  decide

set_option maxRecDepth 4000 in
theorem byte_or_charmode_mask (a : Nat) (h : a < 256) :
    (a ||| CHARMODE_MASK) &&& CHARMODE_REQ = a &&& CHARMODE_REQ ∧
      (a ||| CHARMODE_MASK) < 256 := by
  revert a
  decide

set_option maxRecDepth 4000 in
theorem byte_dont_echo_update (a : Nat) (h : a < 256) :
    ((a &&& (255 - NOECHO)) ||| NOECHO_ACK) &&& CHARMODE_REQ = a &&& CHARMODE_REQ ∧
      ((a &&& (255 - NOECHO)) ||| NOECHO_ACK) < 256 := by
  revert a
  decide

set_option maxRecDepth 4000 in
theorem byte_wont_sga_update (a : Nat) (h : a < 256) :
    ((a &&& (255 - CHARMODE)) ||| CHARMODE_ACK) &&& CHARMODE_REQ = a &&& CHARMODE_REQ ∧
      ((a &&& (255 - CHARMODE)) ||| CHARMODE_ACK) < 256 := by
  revert a
  decide

/-- What a reply function may do: touch sent, supress_go_ahead and the
noecho byte (preserving its one-byte size and its charmode request bit),
leaving the cursors, the buffer and the machine states alone. -/
def ReplyOk (c d : Conn) : Prop :=
  d.command_start = c.command_start ∧ d.command_end = c.command_end ∧
  d.tn_start = c.tn_start ∧ d.tn_end = c.tn_end ∧ d.text_end = c.text_end ∧
  d.tn_state = c.tn_state ∧ d.ts_data = c.ts_data ∧ d.text = c.text ∧
  (c.noecho < 256 → d.noecho &&& CHARMODE_REQ = c.noecho &&& CHARMODE_REQ) ∧
  (c.noecho < 256 → d.noecho < 256)

theorem replyOk_refl (c : Conn) : ReplyOk c c :=
  ⟨rfl, rfl, rfl, rfl, rfl, rfl, rfl, rfl, fun _ => rfl, fun h => h⟩

theorem replyOk_send_wont (o : Nat) (c : Conn) : ReplyOk c (send_wont o c) :=
  ⟨rfl, rfl, rfl, rfl, rfl, rfl, rfl, rfl, fun _ => rfl, fun h => h⟩

theorem replyOk_send_dont (o : Nat) (c : Conn) : ReplyOk c (send_dont o c) :=
  ⟨rfl, rfl, rfl, rfl, rfl, rfl, rfl, rfl, fun _ => rfl, fun h => h⟩

theorem replyOk_send_will (o : Nat) (c : Conn) : ReplyOk c (send_will o c) :=
  ⟨rfl, rfl, rfl, rfl, rfl, rfl, rfl, rfl, fun _ => rfl, fun h => h⟩

theorem replyOk_send_do (o : Nat) (c : Conn) : ReplyOk c (send_do o c) :=
  ⟨rfl, rfl, rfl, rfl, rfl, rfl, rfl, rfl, fun _ => rfl, fun h => h⟩

theorem replyOk_reply_to_do_echo (o : Nat) (c : Conn) : ReplyOk c (reply_to_do_echo o c) := by
  unfold reply_to_do_echo
  split_ifs
  · exact ⟨rfl, rfl, rfl, rfl, rfl, rfl, rfl, rfl,
      fun h => (byte_or_noecho_mask c.noecho h).1, fun h => (byte_or_noecho_mask c.noecho h).2⟩
  · exact ⟨rfl, rfl, rfl, rfl, rfl, rfl, rfl, rfl,
      fun h => (byte_or_noecho_mask c.noecho h).1, fun h => (byte_or_noecho_mask c.noecho h).2⟩
  · exact replyOk_send_wont o c

theorem replyOk_reply_to_dont_echo (o : Nat) (c : Conn) : ReplyOk c (reply_to_dont_echo o c) := by
  unfold reply_to_dont_echo
  split_ifs
  · exact ⟨rfl, rfl, rfl, rfl, rfl, rfl, rfl, rfl,
      fun h => (byte_dont_echo_update c.noecho h).1, fun h => (byte_dont_echo_update c.noecho h).2⟩
  · exact ⟨rfl, rfl, rfl, rfl, rfl, rfl, rfl, rfl,
      fun h => (byte_dont_echo_update c.noecho h).1, fun h => (byte_dont_echo_update c.noecho h).2⟩
  · exact replyOk_refl c

theorem replyOk_reply_to_do_sga (o : Nat) (c : Conn) : ReplyOk c (reply_to_do_sga o c) := by
  unfold reply_to_do_sga
  split_ifs
  · exact ⟨rfl, rfl, rfl, rfl, rfl, rfl, rfl, rfl, fun _ => rfl, fun h => h⟩
  · exact replyOk_refl c
  · exact replyOk_send_wont o c

theorem replyOk_reply_to_dont_sga (o : Nat) (c : Conn) : ReplyOk c (reply_to_dont_sga o c) := by
  unfold reply_to_dont_sga
  split_ifs
  · exact ⟨rfl, rfl, rfl, rfl, rfl, rfl, rfl, rfl, fun _ => rfl, fun h => h⟩
  · exact replyOk_refl c

theorem replyOk_reply_to_will_sga (o : Nat) (c : Conn) : ReplyOk c (reply_to_will_sga o c) := by
  unfold reply_to_will_sga
  split_ifs
  · exact ⟨rfl, rfl, rfl, rfl, rfl, rfl, rfl, rfl,
      fun h => (byte_or_charmode_mask c.noecho h).1, fun h => (byte_or_charmode_mask c.noecho h).2⟩
  · exact ⟨rfl, rfl, rfl, rfl, rfl, rfl, rfl, rfl,
      fun h => (byte_or_charmode_mask c.noecho h).1, fun h => (byte_or_charmode_mask c.noecho h).2⟩
  · exact replyOk_send_dont o c

theorem replyOk_reply_to_wont_sga (o : Nat) (c : Conn) : ReplyOk c (reply_to_wont_sga o c) := by
  unfold reply_to_wont_sga
  split_ifs
  · exact ⟨rfl, rfl, rfl, rfl, rfl, rfl, rfl, rfl,
      fun h => (byte_wont_sga_update c.noecho h).1, fun h => (byte_wont_sga_update c.noecho h).2⟩
  · exact ⟨rfl, rfl, rfl, rfl, rfl, rfl, rfl, rfl,
      fun h => (byte_wont_sga_update c.noecho h).1, fun h => (byte_wont_sga_update c.noecho h).2⟩
  · exact replyOk_refl c

theorem replyOk_reply_h_telnet_neg (o : Nat) (c : Conn) : ReplyOk c (reply_h_telnet_neg o c) := by
  unfold reply_h_telnet_neg
  match c.tn_state with
  | TS_DO => exact replyOk_send_wont o c
  | TS_WILL => exact replyOk_send_dont o c
  | TS_DATA => exact replyOk_refl c
  | TS_IAC => exact replyOk_refl c
  | TS_WONT => exact replyOk_refl c
  | TS_DONT => exact replyOk_refl c
  | TS_SB => exact replyOk_refl c
  | TS_SB_IAC => exact replyOk_refl c
  | TS_READY => exact replyOk_refl c
  | TS_CR => exact replyOk_refl c
  | TS_SYNCH => exact replyOk_refl c
  | TS_INVALID => exact replyOk_refl c

theorem replyOk_telopts_do (o : Nat) (c : Conn) : ReplyOk c (telopts_do o c) := by
  unfold telopts_do
  split_ifs
  · exact replyOk_reply_to_do_echo o c
  · exact replyOk_reply_to_do_sga o c
  · exact replyOk_reply_h_telnet_neg o c
  · exact replyOk_send_wont o c

theorem replyOk_telopts_dont (o : Nat) (c : Conn) : ReplyOk c (telopts_dont o c) := by
  unfold telopts_dont
  split_ifs
  · exact replyOk_reply_to_dont_echo o c
  · exact replyOk_reply_to_dont_sga o c
  · exact replyOk_reply_h_telnet_neg o c
  · exact replyOk_refl c

theorem replyOk_telopts_will (o : Nat) (c : Conn) : ReplyOk c (telopts_will o c) := by
  unfold telopts_will
  split_ifs
  · exact replyOk_reply_to_will_sga o c
  · exact replyOk_reply_h_telnet_neg o c
  · exact replyOk_send_dont o c

theorem replyOk_telopts_wont (o : Nat) (c : Conn) : ReplyOk c (telopts_wont o c) := by
  unfold telopts_wont
  split_ifs
  · exact replyOk_reply_to_wont_sga o c
  · exact replyOk_reply_h_telnet_neg o c
  · exact replyOk_refl c


/-- The proof obligation attached to the outcome of one processing step:
a returning machine has chain-correct cursors, a continuing machine
re-establishes the loop invariant (and the ts_data label is only reached
with the machine in the plain-data state). -/
def StepOk (s : Step) : Prop :=
  match s with
  | .done r => cursor_chain r
  | .contHead r t f => RunInv r t f
  | .contData r t f => RunInv r t f ∧ r.tn_state = TS_DATA

theorem tsok_not_sb (x : TState) (hx : x = TS_DATA ∨ x = TS_SYNCH) :
    ¬ (x = TS_SB ∨ x = TS_SB_IAC) := by
  rcases hx with h | h <;> subst h <;> decide

theorem loop_exit_chain (c : Conn) (toIdx : Nat)
    (h0 : c.command_start = 0) (hle : toIdx ≤ MAX_TEXT) :
    cursor_chain (loop_exit c toIdx) := by
  rw [loop_exit]
  split_ifs with h
  · exact ⟨by simp, by simp, by simp, by simp [MAX_TEXT]⟩
  · exact ⟨by simp [h0], by simp, by simp, by simpa using hle⟩

theorem data_exhausted_chain (c : Conn) (toIdx : Nat)
    (h0 : c.command_start = 0) (hlm : c.noecho &&& CHARMODE_REQ = 0)
    (hle : toIdx ≤ MAX_TEXT) :
    cursor_chain (data_exhausted c toIdx) := by
  by_cases h : MAX_TEXT ≤ toIdx
  · simp only [data_exhausted, cursor_chain]
    rw [if_pos (by simpa using h), if_pos (by simpa using hlm)]
    simp [MAX_TEXT, h0]
  · simp only [data_exhausted, cursor_chain]
    rw [if_neg (by simpa using h)]
    simp [h0]
    omega

theorem full_newline_chain (c : Conn) (toIdx fmIdx : Nat)
    (h0 : c.command_start = 0) (hlm : c.noecho &&& CHARMODE_REQ = 0)
    (hfm : fmIdx ≤ c.text_end) (hmax : c.text_end ≤ MAX_TEXT) :
    cursor_chain (full_newline c toIdx fmIdx) := by
  rw [full_newline_linemode c toIdx fmIdx hlm]
  exact ⟨by simp [h0], by simp, by simpa using hfm, by simpa using hmax⟩

theorem step_ts_cr_ok (c : Conn) (toIdx fmIdx ch : Nat)
    (hinv : RunInv c toIdx fmIdx) : StepOk (step_ts_cr c toIdx fmIdx ch) := by
  obtain ⟨h0, hlm, hb, hts, hchain, hto, hfm, hsb⟩ := hinv
  rw [step_ts_cr]
  rw [if_neg (by simp [hlm])]
  show cursor_chain _
  apply full_newline_chain _ _ _ h0 hlm _ hchain.2.2.2
  split_ifs <;> omega

theorem step_ts_data_ok (c : Conn) (toIdx fmIdx ch : Nat)
    (hinv : RunInv c toIdx fmIdx) (hst : c.tn_state = TS_DATA)
    (hto : toIdx < fmIdx) :
    StepOk (step_ts_data c toIdx fmIdx ch) := by
  obtain ⟨h0, hlm, hb, hts, hchain, hto0, hfm, hsb⟩ := hinv
  have hnsb : ∀ t : Nat, c.tn_state = TS_SB ∨ c.tn_state = TS_SB_IAC → c.tn_start ≤ t := by
    intro t hx
    rw [hst] at hx
    exact absurd hx (by decide)
  rw [step_ts_data]
  by_cases hiac : ch = IAC
  · rw [if_pos hiac]
    exact ⟨h0, hlm, hb, hts, hchain, by omega, hfm, by rintro (h | h) <;> simp at h⟩
  rw [if_neg hiac]
  by_cases hbs : ch = 8 ∨ ch = 127
  · rw [if_pos hbs, if_pos hlm]
    refine ⟨⟨h0, hlm, hb, hts, hchain, ?_, hfm, hnsb _⟩, hst⟩
    split_ifs <;> omega
  rw [if_neg hbs]
  by_cases h00 : ch = 0
  · rw [if_pos h00]
    exact ⟨⟨h0, hlm, hb, hts, hchain, by omega, hfm, hnsb _⟩, hst⟩
  rw [if_neg h00]
  by_cases h13 : ch = 13
  · rw [if_pos h13]
    by_cases hend : c.text_end ≤ fmIdx
    · rw [if_pos hend, if_pos (Or.inl hlm)]
      show cursor_chain _
      exact full_newline_chain _ _ _ (by simpa using h0) (by simpa using hlm)
        (by simpa using hfm) (by simpa using hchain.2.2.2)
    · rw [if_neg hend]
      exact step_ts_cr_ok c toIdx (fmIdx + 1) _
        ⟨h0, hlm, hb, hts, hchain, by omega, by omega, hsb⟩
  rw [if_neg h13]
  by_cases h10 : ch = 10
  · rw [if_pos h10, if_pos (Or.inl hlm)]
    show cursor_chain _
    exact full_newline_chain _ _ _ (by simpa using h0) (by simpa using hlm)
      hfm (by simpa using hchain.2.2.2)
  rw [if_neg h10]
  exact ⟨⟨h0, hlm, hb, hts, hchain, by omega, hfm, hnsb _⟩, hst⟩


theorem data_mark_fields (c : Conn) :
    (data_mark c).command_start = c.command_start ∧ (data_mark c).command_end = c.command_end ∧
    (data_mark c).tn_start = c.tn_start ∧ (data_mark c).tn_end = c.tn_end ∧
    (data_mark c).text_end = c.text_end ∧ (data_mark c).noecho = c.noecho ∧
    (data_mark c).tn_state = c.tn_state := by
  rw [data_mark]
  split_ifs <;> exact ⟨rfl, rfl, rfl, rfl, rfl, rfl, rfl⟩

theorem data_mark_tsok (c : Conn) (h : TsDataOk c) : TsDataOk (data_mark c) := by
  rw [data_mark]
  split_ifs <;> first
    | exact Or.inl rfl
    | exact h

theorem step_ts_iac_ok (c : Conn) (toIdx fmIdx ch : Nat)
    (hinv : RunInv c toIdx fmIdx) (hto : toIdx < fmIdx) :
    StepOk (step_ts_iac c toIdx fmIdx ch) := by
  obtain ⟨h0, hlm, hb, hts, hchain, hto0, hfm, hsb⟩ := hinv
  rw [step_ts_iac]
  by_cases hiac : ch = IAC
  · rw [if_pos hiac]
    exact ⟨⟨h0, hlm, hb, hts, hchain, by omega, hfm,
      by rintro (h | h) <;> simp at h⟩, rfl⟩
  rw [if_neg hiac]
  by_cases hwill : ch = WILL
  · rw [if_pos hwill]
    exact ⟨h0, hlm, hb, hts, hchain, by omega, hfm, by rintro (h | h) <;> simp at h⟩
  rw [if_neg hwill]
  by_cases hwont : ch = WONT
  · rw [if_pos hwont]
    exact ⟨h0, hlm, hb, hts, hchain, by omega, hfm, by rintro (h | h) <;> simp at h⟩
  rw [if_neg hwont]
  by_cases hdo : ch = DO
  · rw [if_pos hdo]
    exact ⟨h0, hlm, hb, hts, hchain, by omega, hfm, by rintro (h | h) <;> simp at h⟩
  rw [if_neg hdo]
  by_cases hdont : ch = DONT
  · rw [if_pos hdont]
    exact ⟨h0, hlm, hb, hts, hchain, by omega, hfm, by rintro (h | h) <;> simp at h⟩
  rw [if_neg hdont]
  by_cases hsbcase : ch = SB
  · rw [if_pos hsbcase]
    exact ⟨h0, hlm, hb, hts, hchain, by omega, hfm, fun _ => le_refl toIdx⟩
  rw [if_neg hsbcase]
  by_cases hdm : ch = DM
  · rw [if_pos hdm]
    obtain ⟨d1, d2, d3, d4, d5, d6, d7⟩ := data_mark_fields c
    have d8 : TsDataOk (data_mark c) := data_mark_tsok c hts
    refine ⟨by simpa [d1] using h0, by simpa [d6] using hlm, by simpa [d6] using hb,
      by simpa using d8, ?_, by omega, by simpa [d5] using hfm, ?_⟩
    · obtain ⟨k1, k2, k3, k4⟩ := hchain
      exact ⟨by simp [d1, d2]; omega, by simp [d2, d4]; omega,
        by simp [d4, d5]; omega, by simp [d5]; omega⟩
    · intro hx
      simp only [] at hx
      exact absurd hx (tsok_not_sb _ (by simpa using d8))
  rw [if_neg hdm]
  refine ⟨h0, hlm, hb, hts, hchain, by omega, hfm, ?_⟩
  intro hx
  simp only [] at hx
  exact absurd hx (tsok_not_sb _ hts)


theorem step_ts_sb_iac_tail_ok (c2 : Conn) (fmIdx ch : Nat)
    (hinv2 : RunInv c2 c2.tn_start fmIdx) (hlt : c2.tn_start < fmIdx) :
    StepOk (if ch ≠ SE then step_ts_iac c2 c2.tn_start fmIdx ch
            else Step.contHead {c2 with tn_state := c2.ts_data} c2.tn_start fmIdx) := by
  obtain ⟨h0, hlm, hb, hts, hchain, hto0, hfm, _⟩ := hinv2
  split_ifs with hse
  · exact step_ts_iac_ok _ _ fmIdx ch ⟨h0, hlm, hb, hts, hchain, hto0, hfm, fun _ => le_refl _⟩ hlt
  · refine ⟨h0, hlm, hb, hts, hchain, hto0, hfm, ?_⟩
    intro hx
    simp only [] at hx
    exact absurd hx (tsok_not_sb _ hts)

theorem step_ts_sb_iac_ok (c : Conn) (toIdx fmIdx ch : Nat)
    (hinv : RunInv c toIdx fmIdx) (hto : toIdx < fmIdx)
    (hsb : c.tn_start ≤ toIdx) :
    StepOk (step_ts_sb_iac c toIdx fmIdx ch) := by
  obtain ⟨h0, hlm, hb, hts, hchain, hto0, hfm, _⟩ := hinv
  rw [step_ts_sb_iac]
  by_cases hiac : ch = IAC
  · rw [if_pos hiac]
    exact ⟨h0, hlm, hb, hts, hchain, by omega, hfm, fun _ => by simpa using by omega⟩
  rw [if_neg hiac]
  apply step_ts_sb_iac_tail_ok
  · split_ifs
    · exact ⟨h0, hlm, hb, hts, hchain, by simp; omega, hfm, fun _ => le_refl _⟩
    · exact ⟨h0, hlm, hb, hts, hchain, by omega, hfm, fun _ => le_refl _⟩
  · split_ifs
    · simp
      omega
    · omega

/-- A reply function followed by the return to the data state keeps the
loop invariant. -/
theorem replyOk_runinv (c d : Conn) (r : ReplyOk c d) (toIdx fmIdx : Nat)
    (hinv : RunInv c toIdx fmIdx) :
    RunInv {d with tn_state := d.ts_data} toIdx fmIdx := by
  obtain ⟨h0, hlm, hb, hts, hchain, hto0, hfm, _⟩ := hinv
  obtain ⟨r1, r2, r3, r4, r5, r6, r7, r8, r9, r10⟩ := r
  have hts2 : TsDataOk d := by
    rcases hts with h | h
    · exact Or.inl (r7.trans h)
    · exact Or.inr (r7.trans h)
  refine ⟨by simpa [r1] using h0, by simpa [r9 hb] using hlm, by simpa using r10 hb,
    by simpa [TsDataOk] using hts2, ?_, hto0, by simpa [r5] using hfm, ?_⟩
  · obtain ⟨k1, k2, k3, k4⟩ := hchain
    exact ⟨by simp [r1, r2]; omega, by simp [r2, r4]; omega,
      by simp [r4, r5]; omega, by simp [r5]; omega⟩
  · intro hx
    simp only [] at hx
    exact absurd hx (tsok_not_sb _ hts2)


theorem step_state_switch_ok (c : Conn) (toIdx fmIdx ch : Nat)
    (hinv : RunInv c toIdx fmIdx) (hto : toIdx < fmIdx) :
    StepOk (step_state_switch c toIdx fmIdx ch) := by
  have hinv2 := hinv
  obtain ⟨h0, hlm, hb, hts, hchain, hto0, hfm, hsb⟩ := hinv2
  rcases htn : c.tn_state with _ | _ | _ | _ | _ | _ | _ | _ | _ | _ | _ | _ <;>
    rw [step_state_switch, htn]
  · -- TS_DATA
    exact step_ts_data_ok c toIdx fmIdx ch hinv htn hto
  · -- TS_IAC
    exact step_ts_iac_ok c toIdx fmIdx ch hinv hto
  · -- TS_WILL
    refine replyOk_runinv c (if ch < NTELOPTS then telopts_will ch c else send_dont ch c)
      ?_ toIdx fmIdx hinv
    split_ifs
    · exact replyOk_telopts_will ch c
    · exact replyOk_send_dont ch c
  · -- TS_WONT
    refine replyOk_runinv c (if ch < NTELOPTS then telopts_wont ch c else c)
      ?_ toIdx fmIdx hinv
    split_ifs
    · exact replyOk_telopts_wont ch c
    · exact replyOk_refl c
  · -- TS_DO
    refine replyOk_runinv c (if ch < NTELOPTS then telopts_do ch c else send_wont ch c)
      ?_ toIdx fmIdx hinv
    split_ifs
    · exact replyOk_telopts_do ch c
    · exact replyOk_send_wont ch c
  · -- TS_DONT
    refine replyOk_runinv c (if ch < NTELOPTS then telopts_dont ch c else c)
      ?_ toIdx fmIdx hinv
    split_ifs
    · exact replyOk_telopts_dont ch c
    · exact replyOk_refl c
  · -- TS_SB
    by_cases hiac : ch = IAC
    · rw [if_pos hiac]
      exact ⟨h0, hlm, hb, hts, hchain, hto0, hfm, fun _ => hsb (Or.inl htn)⟩
    · rw [if_neg hiac]
      exact ⟨h0, hlm, hb, hts, hchain, by omega, hfm,
        fun _ => le_trans (hsb (Or.inl htn)) (by omega)⟩
  · -- TS_SB_IAC
    exact step_ts_sb_iac_ok c toIdx fmIdx ch hinv hto (hsb (Or.inr htn))
  · -- TS_READY
    exact hchain
  · -- TS_CR
    exact step_ts_cr_ok c toIdx fmIdx ch hinv
  · -- TS_SYNCH
    show StepOk (if ch = IAC then Step.contHead {c with tn_state := TS_IAC} toIdx fmIdx
                 else if ch = DM then
                   Step.contHead {data_mark c with tn_state := (data_mark c).ts_data} toIdx fmIdx
                 else Step.contHead c toIdx fmIdx)
    by_cases hiac : ch = IAC
    · rw [if_pos hiac]
      exact ⟨h0, hlm, hb, hts, hchain, hto0, hfm, by rintro (h | h) <;> simp at h⟩
    rw [if_neg hiac]
    by_cases hdm : ch = DM
    · rw [if_pos hdm]
      obtain ⟨d1, d2, d3, d4, d5, d6, d7⟩ := data_mark_fields c
      have d8 : TsDataOk (data_mark c) := data_mark_tsok c hts
      refine ⟨by simpa [d1] using h0, by simpa [d6] using hlm, by simpa [d6] using hb,
        by simpa using d8, ?_, hto0, by simpa [d5] using hfm, ?_⟩
      · obtain ⟨k1, k2, k3, k4⟩ := hchain
        exact ⟨by simp [d1, d2]; omega, by simp [d2, d4]; omega,
          by simp [d4, d5]; omega, by simp [d5]; omega⟩
      · intro hx
        simp only [] at hx
        exact absurd hx (tsok_not_sb _ (by simpa using d8))
    · rw [if_neg hdm]
      exact ⟨h0, hlm, hb, hts, hchain, hto0, hfm, by rw [htn]; rintro (h | h) <;> simp at h⟩
  · -- TS_INVALID
    exact ⟨h0, hlm, hb, hts, hchain, hto0, hfm, by rintro (h | h) <;> simp at h⟩


/-- The processing loop of telnet_neg keeps the cursor chain of a
linemode session, whatever the fuel. -/
theorem tnRun_chain (fuel : Nat) :
    ∀ (ph : Phase) (c : Conn) (toIdx fmIdx : Nat),
      RunInv c toIdx fmIdx →
      (ph = Phase.datacont → c.tn_state = TS_DATA) →
      cursor_chain (tnRun fuel ph c toIdx fmIdx) := by
  induction fuel with
  | zero =>
      intro ph c toIdx fmIdx hinv _
      exact hinv.2.2.2.2.1
  | succ fuel ih =>
      intro ph c toIdx fmIdx hinv hph
      obtain ⟨h0, hlm, hb, hts, hchain, hto0, hfm, hsb⟩ := hinv
      cases ph with
      | head =>
          rw [tnRun]
          split_ifs with hlt
          · have hstep := step_state_switch_ok c toIdx (fmIdx + 1)
              ((bufGet c.text fmIdx) % 256)
              ⟨h0, hlm, hb, hts, hchain, by omega, by omega, hsb⟩ (by omega)
            rcases hs : step_state_switch c toIdx (fmIdx + 1) ((bufGet c.text fmIdx) % 256)
              with r | ⟨r, t, f⟩ | ⟨r, t, f⟩ <;> rw [hs] at hstep <;> simp only [StepOk] at hstep
            · simpa [hs] using hstep
            · simpa [hs] using ih Phase.head r t f hstep (by intro hx; exact absurd hx (by decide))
            · simpa [hs] using ih Phase.datacont r t f hstep.1 (fun _ => hstep.2)
          · exact loop_exit_chain c toIdx h0 (by have := hchain.2.2.2; omega)
      | datacont =>
          rw [tnRun]
          split_ifs with hlt
          · have hstep := step_ts_data_ok c toIdx (fmIdx + 1)
              ((bufGet c.text fmIdx) % 256)
              ⟨h0, hlm, hb, hts, hchain, by omega, by omega, hsb⟩ (hph rfl) (by omega)
            rcases hs : step_ts_data c toIdx (fmIdx + 1) ((bufGet c.text fmIdx) % 256)
              with r | ⟨r, t, f⟩ | ⟨r, t, f⟩ <;> rw [hs] at hstep <;> simp only [StepOk] at hstep
            · simpa [hs] using hstep
            · simpa [hs] using ih Phase.head r t f hstep (by intro hx; exact absurd hx (by decide))
            · simpa [hs] using ih Phase.datacont r t f hstep.1 (fun _ => hstep.2)
          · exact data_exhausted_chain c toIdx h0 hlm (by have := hchain.2.2.2; omega)

/-- One run of the telnet machine from a linemode session leaves the
input-buffer cursors in the claimed chain. -/
theorem telnet_neg_chain (c : Conn) (h : LinemodeInv c) :
    cursor_chain (telnet_neg c) := by
  obtain ⟨h0, hlm, hb, hts, hchain, hsb⟩ := h
  obtain ⟨k1, k2, k3, k4⟩ := hchain
  rw [telnet_neg]
  split_ifs with h1 h2 h3
  · exact ⟨k1, le_refl _, le_refl _, le_trans k2 (le_trans k3 k4)⟩
  · show cursor_chain (if c.text_end ≤ c.tn_end + 1
        then {c with gobble_char := 0, text_end := c.command_end, tn_end := c.command_end}
        else tnRun FUEL Phase.head {c with gobble_char := 0} c.command_end (c.tn_end + 1))
    split_ifs with hh
    · exact ⟨k1, le_refl _, le_refl _, le_trans k2 (le_trans k3 k4)⟩
    · apply tnRun_chain
      · exact ⟨h0, hlm, hb, hts, ⟨k1, k2, k3, k4⟩, by omega,
          show c.tn_end + 1 ≤ c.text_end by omega, hsb⟩
      · intro hx
        exact absurd hx (by decide)
  · show cursor_chain (if c.text_end ≤ c.tn_end
        then {c with gobble_char := 0, text_end := c.command_end, tn_end := c.command_end}
        else tnRun FUEL Phase.head {c with gobble_char := 0} c.command_end c.tn_end)
    rw [if_neg h1]
    apply tnRun_chain
    · exact ⟨h0, hlm, hb, hts, ⟨k1, k2, k3, k4⟩, k2,
        show c.tn_end ≤ c.text_end by omega, hsb⟩
    · intro hx
      exact absurd hx (by decide)
  · apply tnRun_chain
    · exact ⟨h0, hlm, hb, hts, ⟨k1, k2, k3, k4⟩, k2, by omega, hsb⟩
    · intro hx
      exact absurd hx (by decide)
/-- C3 amended: after a run of the Telnet machine and after a command
delivery, the input-buffer cursors of a linemode session satisfy
0 ≤ command_start ≤ command_end ≤ tn_end ≤ text_end ≤ MAX_TEXT; in
charmode the super-long-command reset can instead leave command_end above
tn_end (see the counterexample). -/
theorem C3_linemode_cursor_chain (c : Conn) (h : LinemodeInv c) :
    cursor_chain (telnet_neg c) ∧ cursor_chain (deliver_command c).2 := by
  refine ⟨telnet_neg_chain c h, ?_⟩
  rw [deliver_command]
  split_ifs with hr
  · show cursor_chain (telnet_neg {c with tn_state := TS_DATA})
    apply telnet_neg_chain
    obtain ⟨h0, hlm, hb, hts, hchain, hsb⟩ := h
    exact ⟨h0, hlm, hb, hts, hchain, by rintro (hx | hx) <;> simp at hx⟩
  · exact h.2.2.2.2.1

/-- C3 witness: the amended chain theorem applied to a fresh session. -/
theorem C3_witness :
    cursor_chain (telnet_neg fresh_conn) ∧ cursor_chain (deliver_command fresh_conn).2 :=
  C3_linemode_cursor_chain fresh_conn
    ⟨rfl, rfl, by decide, Or.inl rfl, ⟨by decide, by decide, by decide, by decide⟩, by decide⟩


/-! ### C4: round-robin command dispatch (get_message, comm.c 1679-1686 and 2440-2504) -/

/-- Scheduler bookkeeping of get_message: NextCmdGiver is the index of the
session currently being polled for commands, CmdsGiven the number of
commands that session was given in this cycle (comm.c 1679-1682). -/
structure Sched where
  nextCmdGiver : Int
  cmdsGiven : Nat

/-- The bookkeeping run after each command delivery (comm.c 2457-2470): a
session with an editor buffer whose count is still below ALLOWED_ED_CMDS
keeps the cursor and counts the command; otherwise IncCmdGiver moves the
cursor past the session and the count is reset to 0. -/
def dispatch_advance (edBuffer : Bool) (s : Sched) : Sched :=
  if edBuffer = true ∧ s.cmdsGiven < ALLOWED_ED_CMDS then
    { s with cmdsGiven := s.cmdsGiven + 1 }
  else
    { nextCmdGiver := s.nextCmdGiver - 1, cmdsGiven := 0 }

/-- Number of consecutive commands delivered to the same session in one
scheduler pass: every delivery runs dispatch_advance, and the session stops
receiving commands as soon as NextCmdGiver has moved. -/
def countDeliveries (edBuffer : Bool) : Nat → Sched → Nat
  | 0, _ => 0
  | fuel + 1, s =>
    if (dispatch_advance edBuffer s).nextCmdGiver = s.nextCmdGiver
    then 1 + countDeliveries edBuffer fuel (dispatch_advance edBuffer s)
    else 1

theorem countDeliveries_ed (n : Int) (c fuel : Nat) (hc : c ≤ ALLOWED_ED_CMDS)
    (hf : ALLOWED_ED_CMDS + 1 - c ≤ fuel) :
    countDeliveries true fuel ⟨n, c⟩ = ALLOWED_ED_CMDS + 1 - c := by
  induction fuel generalizing c with
  | zero =>
    exfalso
    have : c < ALLOWED_ED_CMDS + 1 := by omega
    omega
  | succ fuel ih =>
    by_cases hlt : c < ALLOWED_ED_CMDS
    · have hda : dispatch_advance true ⟨n, c⟩ = ⟨n, c + 1⟩ := by
        rw [dispatch_advance, if_pos ⟨rfl, hlt⟩]
      rw [countDeliveries, hda]
      rw [if_pos rfl]
      rw [ih (c + 1) (by omega) (by omega)]
      omega
    · have hda : dispatch_advance true ⟨n, c⟩ = ⟨n - 1, 0⟩ := by
        rw [dispatch_advance, if_neg]
        rintro ⟨-, h2⟩
        exact hlt h2
      rw [countDeliveries, hda]
      rw [if_neg (by simp only []; omega)]
      omega

/-- C4 counterexample: an editor session that starts a cycle receives
ALLOWED_ED_CMDS + 1 = 21 commands before the round-robin cursor advances,
not the stated burst of ALLOWED_ED_CMDS = 20: the check CmdsGiven <
ALLOWED_ED_CMDS happens before the increment, so the burst overshoots by
one. -/
theorem C4_counterexample :
    countDeliveries true (ALLOWED_ED_CMDS + 2) { nextCmdGiver := 5, cmdsGiven := 0 }
        = ALLOWED_ED_CMDS + 1
      ∧ ALLOWED_ED_CMDS + 1 ≠ ALLOWED_ED_CMDS := by
  constructor
  · exact countDeliveries_ed 5 0 (ALLOWED_ED_CMDS + 2) (by decide) (by decide)
  · decide

/-- C4 amended: within one scheduler pass, a session without an editor
buffer is delivered exactly one command before NextCmdGiver advances past
it, while a session with an editor buffer that starts the cycle is
delivered exactly ALLOWED_ED_CMDS + 1 = 21 commands before the cursor
advances. -/
theorem C4_dispatch_burst (s : Sched) (h : s.cmdsGiven = 0) :
    countDeliveries false (ALLOWED_ED_CMDS + 2) s = 1 ∧
    countDeliveries true (ALLOWED_ED_CMDS + 2) s = ALLOWED_ED_CMDS + 1 := by
  obtain ⟨n, c⟩ := s
  simp only [] at h
  subst h
  constructor
  · have hda : dispatch_advance false ⟨n, 0⟩ = ⟨n - 1, 0⟩ := by
      rw [dispatch_advance, if_neg]
      rintro ⟨h1, -⟩
      exact Bool.noConfusion h1
    rw [countDeliveries, hda]
    rw [if_neg (by simp only []; omega)]
  · exact countDeliveries_ed n 0 (ALLOWED_ED_CMDS + 2) (by decide) (by decide)

/-- C4 witness: the burst counts evaluated for a session at cursor index 3
with a fresh cycle count. -/
theorem C4_witness :
    countDeliveries false (ALLOWED_ED_CMDS + 2) ⟨3, 0⟩ = 1 ∧
    countDeliveries true (ALLOWED_ED_CMDS + 2) ⟨3, 0⟩ = ALLOWED_ED_CMDS + 1 :=
  C4_dispatch_burst ⟨3, 0⟩ rfl

/-! ### C5: write errors in add_message (comm.c 1443-1500) -/

/-- The errno values distinguished by the write loop of add_message. -/
inductive WErr where
  | ok
  | EINTR
  | EWOULDBLOCK
  | EMSGSIZE
  | EINVAL
  | ENETUNREACH
  | EHOSTUNREACH
  | EPIPE
  | other
deriving DecidableEq

/-- Outcome of the write loop, carrying the number of socket_write attempts
made: the chunk was sent; or the buffered message was discarded without
marking the session for close; or the call returned with the buffer kept
intact and the session untouched; or the message was discarded and do_close
was set. -/
inductive WriteOutcome where
  | sent (attempts : Nat)
  | discardedNoClose (attempts : Nat)
  | bufferKept (attempts : Nat)
  | discardedClose (attempts : Nat)
deriving DecidableEq

/-- The for (retries = 6;;) write loop of add_message (comm.c 1445-1500),
with the result of the attempt number a given by f a.  A successful write
leaves the loop; EINTR retries while --retries is nonzero and otherwise
discards the message without closing; EWOULDBLOCK discards without
closing; EMSGSIZE returns with the buffer kept; EINVAL, ENETUNREACH,
EHOSTUNREACH, EPIPE and unknown errnos fall through to the discard that
also sets do_close. -/
def write_retry_loop (f : Nat → WErr) (retries attempt : Nat) : WriteOutcome :=
  if f attempt = WErr.ok then WriteOutcome.sent (attempt + 1)
  else if f attempt = WErr.EINTR then
    (if h : 2 ≤ retries then write_retry_loop f (retries - 1) (attempt + 1)
     else WriteOutcome.discardedNoClose (attempt + 1))
  else if f attempt = WErr.EWOULDBLOCK then WriteOutcome.discardedNoClose (attempt + 1)
  else if f attempt = WErr.EMSGSIZE then WriteOutcome.bufferKept (attempt + 1)
  else WriteOutcome.discardedClose (attempt + 1)
termination_by retries
decreasing_by
  omega

/-- add_message enters the write loop with retries = 6 (comm.c 1445). -/
def add_message_write (f : Nat → WErr) : WriteOutcome :=
  write_retry_loop f 6 0

theorem write_retry_loop_eintr_all (f : Nat → WErr) (h : ∀ a, f a = WErr.EINTR)
    (r a : Nat) (hr : 2 ≤ r) :
    write_retry_loop f r a = write_retry_loop f (r - 1) (a + 1) := by
  rw [write_retry_loop]
  rw [h a]
  rw [if_neg (by decide), if_pos rfl, dif_pos hr]

/-- C5 counterexample: a write that fails with EMSGSIZE returns with the
buffered message kept and the session not marked for close, refuting the
claim that every non-EINTR, non-EWOULDBLOCK write error discards the
message and sets do_close. -/
theorem C5_counterexample :
    add_message_write (fun _ => WErr.EMSGSIZE) = WriteOutcome.bufferKept 1 ∧
    (∀ n, WriteOutcome.bufferKept 1 ≠ WriteOutcome.discardedClose n) := by
  constructor
  · rw [add_message_write, write_retry_loop]
    rw [if_neg (by decide), if_neg (by decide), if_neg (by decide), if_pos rfl]
  · intro n h
    exact WriteOutcome.noConfusion h

/-- C5 amended: an all-EINTR write makes 6 attempts in total (the initial
write plus 5 retries) and then discards the message without closing the
session; EWOULDBLOCK discards the message without closing; EMSGSIZE
returns with the buffer kept and the session untouched; EINVAL,
ENETUNREACH, EHOSTUNREACH, EPIPE and unknown errnos discard the message
and mark the session for close. -/
theorem C5_write_error_handling (f : Nat → WErr) :
    ((∀ a, f a = WErr.EINTR) →
       add_message_write f = WriteOutcome.discardedNoClose 6) ∧
    (∀ r a, f a = WErr.EWOULDBLOCK →
       write_retry_loop f r a = WriteOutcome.discardedNoClose (a + 1)) ∧
    (∀ r a, f a = WErr.EMSGSIZE →
       write_retry_loop f r a = WriteOutcome.bufferKept (a + 1)) ∧
    (∀ r a, f a = WErr.EINVAL ∨ f a = WErr.ENETUNREACH ∨ f a = WErr.EHOSTUNREACH ∨
            f a = WErr.EPIPE ∨ f a = WErr.other →
       write_retry_loop f r a = WriteOutcome.discardedClose (a + 1)) := by
  refine ⟨?_, ?_, ?_, ?_⟩
  · intro h
    rw [add_message_write]
    rw [write_retry_loop_eintr_all f h 6 0 (by decide)]
    rw [write_retry_loop_eintr_all f h 5 1 (by decide)]
    rw [write_retry_loop_eintr_all f h 4 2 (by decide)]
    rw [write_retry_loop_eintr_all f h 3 3 (by decide)]
    rw [write_retry_loop_eintr_all f h 2 4 (by decide)]
    rw [write_retry_loop]
    rw [h 5]
    rw [if_neg (by decide), if_pos rfl, dif_neg (by decide)]
  · intro r a hf
    rw [write_retry_loop, hf]
    rw [if_neg (by decide), if_neg (by decide), if_pos rfl]
  · intro r a hf
    rw [write_retry_loop, hf]
    rw [if_neg (by decide), if_neg (by decide), if_neg (by decide), if_pos rfl]
  · intro r a hf
    rw [write_retry_loop]
    rcases hf with hf | hf | hf | hf | hf <;>
      rw [hf] <;>
      rw [if_neg (by decide), if_neg (by decide), if_neg (by decide),
          if_neg (by decide)]

/-- C5 witness: the amended error handling evaluated on an all-EINTR trace
and on an all-EPIPE trace. -/
theorem C5_witness :
    add_message_write (fun _ => WErr.EINTR) = WriteOutcome.discardedNoClose 6 ∧
    write_retry_loop (fun _ => WErr.EPIPE) 6 0 = WriteOutcome.discardedClose 1 :=
  ⟨(C5_write_error_handling (fun _ => WErr.EINTR)).1 (fun _ => rfl),
   (C5_write_error_handling (fun _ => WErr.EPIPE)).2.2.2 6 0
     (Or.inr (Or.inr (Or.inr (Or.inl rfl))))⟩

/-! ### C6: read errors in the command scan (comm.c 2178-2248) -/

/-- The errno values distinguished after a failed socket_read in the
command scan of get_message. -/
inductive RdErr where
  | ENETUNREACH
  | EHOSTUNREACH
  | ETIMEDOUT
  | ECONNRESET
  | EWOULDBLOCK
  | EMSGSIZE
  | ESHUTDOWN
  | EBADF
  | unknown
deriving DecidableEq

/-- Result of the socket_read call: an error, or the number of bytes read
(0 for an end-of-file read). -/
inductive ReadResult where
  | err (e : RdErr)
  | bytes (n : Nat)
deriving DecidableEq

/-- What get_message does with the session after the read. -/
inductive ReadAction where
  | removed
  | fatal
  | kept
  | processed (n : Nat)
deriving DecidableEq

/-- The errno chain after socket_read in get_message (comm.c 2184-2248):
each listed errno except EMSGSIZE removes the interactive and continues
with the next session; EMSGSIZE just continues; an unknown errno also
removes; a zero-byte read removes the interactive -- unless the socket
was already closing, in which case comm_fatal forcefully disconnects;
a positive read advances text_end and feeds the telnet machine. -/
def read_error_action (closing : Bool) : ReadResult → ReadAction
  | ReadResult.err RdErr.ENETUNREACH => ReadAction.removed
  | ReadResult.err RdErr.EHOSTUNREACH => ReadAction.removed
  | ReadResult.err RdErr.ETIMEDOUT => ReadAction.removed
  | ReadResult.err RdErr.ECONNRESET => ReadAction.removed
  | ReadResult.err RdErr.EWOULDBLOCK => ReadAction.removed
  | ReadResult.err RdErr.EMSGSIZE => ReadAction.kept
  | ReadResult.err RdErr.ESHUTDOWN => ReadAction.removed
  | ReadResult.err RdErr.EBADF => ReadAction.removed
  | ReadResult.err RdErr.unknown => ReadAction.removed
  | ReadResult.bytes 0 => if closing then ReadAction.fatal else ReadAction.removed
  | ReadResult.bytes (n + 1) => ReadAction.processed (n + 1)

/-- C6 confirmed: read failures with ENETUNREACH, EHOSTUNREACH, ETIMEDOUT,
ECONNRESET, EWOULDBLOCK, ESHUTDOWN or EBADF remove the session, a
zero-byte read on a non-closing session removes it as well, and an
EMSGSIZE failure leaves the session in place while the pass continues. -/
theorem C6_read_errors :
    (∀ cl : Bool,
      read_error_action cl (ReadResult.err RdErr.ENETUNREACH) = ReadAction.removed ∧
      read_error_action cl (ReadResult.err RdErr.EHOSTUNREACH) = ReadAction.removed ∧
      read_error_action cl (ReadResult.err RdErr.ETIMEDOUT) = ReadAction.removed ∧
      read_error_action cl (ReadResult.err RdErr.ECONNRESET) = ReadAction.removed ∧
      read_error_action cl (ReadResult.err RdErr.EWOULDBLOCK) = ReadAction.removed ∧
      read_error_action cl (ReadResult.err RdErr.ESHUTDOWN) = ReadAction.removed ∧
      read_error_action cl (ReadResult.err RdErr.EBADF) = ReadAction.removed) ∧
    read_error_action false (ReadResult.bytes 0) = ReadAction.removed ∧
    (∀ cl : Bool,
      read_error_action cl (ReadResult.err RdErr.EMSGSIZE) = ReadAction.kept) := by
  decide

/-! ### C7: the dirty-flush list invariant (comm.c 1514-1537, 1571-1598, 1601-1621) -/

/-- The flush bookkeeping shared by all sessions: dirty is the
first_player_for_flush chain (as the list of session indices it links) and
len gives each session its message_length. -/
structure FlushState where
  dirty : List Nat
  len : Nat → Nat

/-- The C7 invariant: a session is linked into the dirty-flush chain if
and only if its buffered output length is nonzero, and the chain links
each session at most once. -/
def FlushInv (s : FlushState) : Prop :=
  (∀ i, i ∈ s.dirty ↔ s.len i ≠ 0) ∧ s.dirty.Nodup

/-- remove_flush_entry of comm.c: zero message_length and unlink the
session from the dirty chain. -/
def remove_flush_entry (i : Nat) (s : FlushState) : FlushState :=
  { dirty := s.dirty.erase i
    len := fun j => if j = i then 0 else s.len j }

/-- The final touches of add_message (comm.c 1514-1536): message_length is
set to the bytes left in the output buffer; a buffer that went from empty
to nonempty links the session at the head of the dirty chain, one that
went from nonempty to empty is removed via remove_flush_entry. -/
def add_message_finish (i : Nat) (newLen : Nat) (s : FlushState) : FlushState :=
  if newLen ≠ 0 ∧ s.len i = 0 then
    { dirty := i :: s.dirty, len := fun j => if j = i then newLen else s.len j }
  else if newLen = 0 ∧ s.len i ≠ 0 then
    remove_flush_entry i
      { s with len := fun j => if j = i then newLen else s.len j }
  else
    { s with len := fun j => if j = i then newLen else s.len j }

/-- The error exits of the add_message write loop (comm.c 1455-1456,
1463-1464, 1495-1496): the buffer is discarded, and remove_flush_entry
runs exactly when the session had been dirty on entry. -/
def add_message_abort (i : Nat) (s : FlushState) : FlushState :=
  if s.len i ≠ 0 then remove_flush_entry i s else s

/-- flush_all_player_mess of comm.c: walk the dirty chain and flush every
linked session; each flush drains the buffer, so it acts as
add_message_finish with a final length of 0. -/
def flush_all_player_mess (s : FlushState) : FlushState :=
  s.dirty.foldl (fun t p => add_message_finish p 0 t) s

theorem remove_flush_entry_inv (i : Nat) (s : FlushState) (h : FlushInv s) :
    FlushInv (remove_flush_entry i s) := by
  obtain ⟨hm, hnd⟩ := h
  constructor
  · intro j
    simp only [remove_flush_entry]
    rw [hnd.mem_erase_iff]
    by_cases hj : j = i
    · simp [hj]
    · simp [hj, hm j]
  · exact hnd.erase i

theorem add_message_finish_inv (i nl : Nat) (s : FlushState) (h : FlushInv s) :
    FlushInv (add_message_finish i nl s) := by
  obtain ⟨hm, hnd⟩ := h
  rw [add_message_finish]
  split_ifs with h1 h2
  · obtain ⟨hnl, hz⟩ := h1
    have hni : i ∉ s.dirty := by
      rw [hm i]
      simp [hz]
    constructor
    · intro j
      simp only [List.mem_cons]
      by_cases hj : j = i
      · simp [hj, hnl]
      · simp [hj, hm j]
    · exact List.nodup_cons.mpr ⟨hni, hnd⟩
  · constructor
    · intro j
      simp only [remove_flush_entry]
      rw [hnd.mem_erase_iff]
      by_cases hj : j = i
      · simp [hj]
      · simp [hj, hm j]
    · exact hnd.erase i
  · constructor
    · intro j
      by_cases hj : j = i
      · subst hj
        simp [hm j]
        omega
      · simp [hj, hm j]
    · exact hnd

theorem add_message_abort_inv (i : Nat) (s : FlushState) (h : FlushInv s) :
    FlushInv (add_message_abort i s) := by
  rw [add_message_abort]
  split_ifs with h1
  · exact remove_flush_entry_inv i s h
  · exact h

theorem flush_fold_inv (l : List Nat) (s : FlushState) (h : FlushInv s) :
    FlushInv (l.foldl (fun t p => add_message_finish p 0 t) s) := by
  induction l generalizing s with
  | nil => exact h
  | cons p l ih => exact ih (add_message_finish p 0 s) (add_message_finish_inv p 0 s h)

/-- C7 confirmed: if a session state satisfies the dirty-iff-pending
invariant, then it still satisfies it after the final touches of any
add_message call, after the error exit of the write loop, after
remove_flush_entry, and after flush_all_player_mess. -/
theorem C7_dirty_iff_pending (i nl : Nat) (s : FlushState) (h : FlushInv s) :
    FlushInv (add_message_finish i nl s) ∧
    FlushInv (add_message_abort i s) ∧
    FlushInv (remove_flush_entry i s) ∧
    FlushInv (flush_all_player_mess s) :=
  ⟨add_message_finish_inv i nl s h, add_message_abort_inv i s h,
   remove_flush_entry_inv i s h, flush_fold_inv s.dirty s h⟩

/-- C7 witness: the invariant preservation evaluated on the empty flush
state with session 1 writing 7 bytes. -/
theorem C7_witness :
    FlushInv (add_message_finish 1 7 { dirty := [], len := fun _ => 0 }) ∧
    FlushInv (add_message_abort 1 { dirty := [], len := fun _ => 0 }) ∧
    FlushInv (remove_flush_entry 1 { dirty := [], len := fun _ => 0 }) ∧
    FlushInv (flush_all_player_mess { dirty := [], len := fun _ => 0 }) :=
  C7_dirty_iff_pending 1 7 { dirty := [], len := fun _ => 0 }
    ⟨fun i => by simp, List.nodup_nil⟩

/-! ### C8: send_erq framing (comm.c 4611-4660) -/

/-- The ERQ send-side state: the descriptor of the attached ERQ (negative
when none is attached), the static frame buffer buf, the offset of the
pending pointer into it, and erq_pending_len. -/
structure ErqState where
  erq_demon : Int
  buf : List Nat
  pending_off : Nat
  erq_pending_len : Nat

/-- A 32-bit big-endian quantity as four bytes (htonl stores). -/
def be32 (n : Nat) : List Nat :=
  [n / 2 ^ 24 % 256, n / 2 ^ 16 % 256, n / 2 ^ 8 % 256, n % 256]

/-- send_erq of comm.c.  w1 and w2 are the byte counts the two possible
socket_write calls report (0 standing for no progress or failure; a real
write never exceeds the requested length, so the counts are capped).  The
call refuses (returns false) when no ERQ is attached, when the pending
tail of a previously begun frame survives the flush attempt, or when
arglen + 9 overflows the buffer; otherwise it composes the frame
big-endian-length | big-endian-handle | request byte | payload into buf,
writes as much as possible and returns true with the unwritten tail left
pending. -/
def send_erq (handle request : Nat) (arg : List Nat) (w1 w2 : Nat)
    (s : ErqState) : Bool × ErqState :=
  if s.erq_demon < 0 then (false, s)
  else
    havePendingFlushed s (min w1 s.erq_pending_len)
  where
  havePendingFlushed (s : ErqState) (wrote : Nat) : Bool × ErqState :=
    sendFresh
      (if s.erq_pending_len ≠ 0 ∧ 0 < wrote then
        { s with pending_off := s.pending_off + wrote
                 erq_pending_len := s.erq_pending_len - wrote }
       else s)
  sendFresh (s : ErqState) : Bool × ErqState :=
    if s.erq_pending_len ≠ 0 then (false, s)
    else if ERQ_MAX_SEND < arg.length + 9 then (false, s)
    else
      (true,
        { erq_demon := s.erq_demon
          buf := be32 (arg.length + 9) ++ be32 (handle % 2 ^ 32) ++
                 [request % 256] ++ arg
          pending_off := min w2 (arg.length + 9)
          erq_pending_len := (arg.length + 9) - min w2 (arg.length + 9) })

/-- C8 confirmed: send_erq refuses while no ERQ is attached; refuses when
the pending tail of an earlier frame survives the one flush attempt;
refuses an oversized payload; and otherwise returns true having composed
exactly one frame -- 4-byte big-endian total length arglen + 9, 4-byte
big-endian handle, the request byte, then the payload -- whose written
prefix and pending tail always account for the whole frame, so at most
this one partially sent frame is outstanding. -/
theorem C8_send_erq (handle request : Nat) (arg : List Nat) (w1 w2 : Nat)
    (s : ErqState) :
    (s.erq_demon < 0 → send_erq handle request arg w1 w2 s = (false, s)) ∧
    (0 ≤ s.erq_demon → s.erq_pending_len ≠ 0 → w1 < s.erq_pending_len →
       (send_erq handle request arg w1 w2 s).1 = false) ∧
    (0 ≤ s.erq_demon → s.erq_pending_len = 0 → ERQ_MAX_SEND < arg.length + 9 →
       (send_erq handle request arg w1 w2 s).1 = false) ∧
    (0 ≤ s.erq_demon → s.erq_pending_len = 0 → arg.length + 9 ≤ ERQ_MAX_SEND →
       (send_erq handle request arg w1 w2 s).1 = true ∧
       (send_erq handle request arg w1 w2 s).2.buf =
         be32 (arg.length + 9) ++ be32 (handle % 2 ^ 32) ++ [request % 256] ++ arg ∧
       (send_erq handle request arg w1 w2 s).2.buf.length = arg.length + 9 ∧
       (send_erq handle request arg w1 w2 s).2.pending_off +
         (send_erq handle request arg w1 w2 s).2.erq_pending_len = arg.length + 9) := by
  refine ⟨?_, ?_, ?_, ?_⟩
  · intro hneg
    rw [send_erq, if_pos hneg]
  · intro hpos hpend hw
    rw [send_erq, if_neg (by omega)]
    rw [send_erq.havePendingFlushed]
    have hkeep : min w1 s.erq_pending_len < s.erq_pending_len ∨ min w1 s.erq_pending_len = 0 := by
      omega
    by_cases hw0 : s.erq_pending_len ≠ 0 ∧ 0 < min w1 s.erq_pending_len
    · rw [if_pos hw0]
      rw [send_erq.sendFresh]
      rw [if_pos]
      simp only []
      omega
    · rw [if_neg hw0]
      rw [send_erq.sendFresh]
      rw [if_pos hpend]
  · intro hpos hpend hlen
    rw [send_erq, if_neg (by omega)]
    rw [send_erq.havePendingFlushed]
    rw [if_neg (by simp [hpend])]
    rw [send_erq.sendFresh]
    rw [if_neg (by simp [hpend]), if_pos hlen]
  · intro hpos hpend hlen
    rw [send_erq, if_neg (by omega)]
    rw [send_erq.havePendingFlushed]
    rw [if_neg (by simp [hpend])]
    rw [send_erq.sendFresh]
    rw [if_neg (by simp [hpend]), if_neg (by omega)]
    refine ⟨rfl, rfl, ?_, ?_⟩
    · simp [be32, List.length_append]
    · simp only []
      omega

/-- C8 witness: send_erq with an attached ERQ, no pending tail, handle 7,
request 3, payload of two bytes, and a first write of one byte. -/
theorem C8_witness :
    ((0 : Int) < 0 → False) ∧
    ((send_erq 7 3 [65, 66] 0 1
        { erq_demon := 0, buf := [], pending_off := 0, erq_pending_len := 0 }).1
      = true ∧
     (send_erq 7 3 [65, 66] 0 1
        { erq_demon := 0, buf := [], pending_off := 0, erq_pending_len := 0 }).2.buf
      = be32 11 ++ be32 7 ++ [3] ++ [65, 66] ∧
     (send_erq 7 3 [65, 66] 0 1
        { erq_demon := 0, buf := [], pending_off := 0, erq_pending_len := 0 }).2.buf.length
      = 11 ∧
     (send_erq 7 3 [65, 66] 0 1
        { erq_demon := 0, buf := [], pending_off := 0, erq_pending_len := 0 }).2.pending_off +
     (send_erq 7 3 [65, 66] 0 1
        { erq_demon := 0, buf := [], pending_off := 0, erq_pending_len := 0 }).2.erq_pending_len
      = 11) :=
  ⟨fun h => absurd h (by decide),
   (C8_send_erq 7 3 [65, 66] 0 1
      { erq_demon := 0, buf := [], pending_off := 0, erq_pending_len := 0 }).2.2.2
     (by decide) rfl (by decide)⟩

/-! ### C9: input redirects and the NOECHO_STALE bit
(comm.c 2933-3035, 3059-3197, 1540-1568) -/

/-- reset_input_buffer of comm.c (1540-1568): when returning from charmode
to linemode, shift the cooked data from command_start down to the buffer
base and pull all cursors along, clamping at zero. -/
def reset_input_buffer (c : Conn) : Conn :=
  if c.command_start ≠ 0 then
    { c with
      tn_start := c.tn_start - c.command_start
      tn_end := c.tn_end - c.command_start
      text :=
        if c.tn_end - c.command_start = 0 then c.text
        else fun k =>
          if k < c.tn_end - c.command_start then bufGet c.text (k + c.command_start)
          else bufGet c.text k
      text_end := c.tn_end - c.command_start
      command_end :=
        if c.command_end ≠ 0 then c.tn_end - c.command_start else c.command_end
      command_start := 0 }
  else c

/-- The confirm value of set_noecho (comm.c 2947-2948): the requested
flags with each request bit copied up into the corresponding mode bit
(CHARMODE_REQ_TO_CHARMODE shifts by two; modelled from the spec since
comm.h is not in the tree), truncated to a char. -/
def snConfirm (arg : Nat) : Nat :=
  (arg ||| ((arg &&& (NOECHO_REQ ||| CHARMODE_REQ)) <<< 2)) &&& 255

/-- confirm after NOECHO_ACKSHIFT (comm.c 2953): the mode bits copied up
into the acknowledge bits (modelled from the spec since comm.h is not in
the tree), truncated to a char. -/
def snConfirm2 (arg : Nat) : Nat :=
  (snConfirm arg ||| (snConfirm arg <<< 2)) &&& 255

/-- The echo negotiation of set_noecho (comm.c 2979-2988): leaving NOECHO
sends WONT ECHO, entering any NOECHO_MASK bit sends WILL ECHO. -/
def sn_echo_step (old conf2 : Nat) (c : Conn) : Conn :=
  if (255 - conf2) &&& old &&& NOECHO ≠ 0 then send_wont TELOPT_ECHO c
  else if conf2 &&& (255 - old) &&& NOECHO_MASK ≠ 0 then send_will TELOPT_ECHO c
  else c

/-- The go-ahead suppression shutdown of set_noecho (comm.c 2989-2994). -/
def sn_sga_off_step (conf2 : Nat) (c : Conn) : Conn :=
  if c.supress_go_ahead = true ∧ conf2 &&& (NOECHO ||| CHARMODE) = 0 then
    send_wont TELOPT_SGA { c with supress_go_ahead := false }
  else c

/-- Restoring the saved telnet state when charmode shuts down (comm.c
3011-3016). -/
def sn_restore_state (c : Conn) : Conn :=
  if c.save_tn_state ≠ TS_INVALID then
    { c with chars_ready := 0, tn_state := c.save_tn_state }
  else c

/-- Turning charmode off (comm.c 3003-3017): DONT SGA if charmode had been
confirmed, then restore the saved telnet state. -/
def sn_charmode_off (old conf2 : Nat) (c : Conn) : Conn :=
  if (255 - conf2) &&& old &&& CHARMODE_MASK ≠ 0 then
    sn_restore_state (if old &&& CHARMODE ≠ 0 then send_dont TELOPT_SGA c else c)
  else c

/-- The charmode negotiation of set_noecho (comm.c 2999-3031): leaving
charmode (or dropping a stale charmode request) shuts charmode down and
repacks the input buffer; entering charmode sends DO+WILL SGA. -/
def sn_charmode_step (old conf2 : Nat) (c : Conn) : Conn :=
  if (255 - conf2) &&& old &&& CHARMODE_MASK ≠ 0 ∨
     ((255 - conf2) &&& old &&& NOECHO_STALE ≠ 0 ∧ old &&& CHARMODE_MASK ≠ 0) then
    reset_input_buffer (sn_charmode_off old conf2 c)
  else if conf2 &&& (255 - old) &&& CHARMODE_MASK ≠ 0 then
    { send_will TELOPT_SGA (send_do TELOPT_SGA c) with supress_go_ahead := true }
  else c

/-- set_noecho of comm.c (2933-3035) with no H_NOECHO hook installed: the
new noecho is always confirm; if the effective mode/ack bits change, the
default machinery emits the matching ECHO and SGA negotiations. -/
def set_noecho (c : Conn) (arg : Nat) : Conn :=
  if (snConfirm2 arg ^^^ c.noecho) &&& (NOECHO_MASK ||| CHARMODE_MASK) ≠ 0 then
    sn_charmode_step c.noecho (snConfirm2 arg)
      (sn_sga_off_step (snConfirm2 arg)
        (sn_echo_step c.noecho (snConfirm2 arg) { c with noecho := snConfirm arg }))
  else { c with noecho := snConfirm arg }

/-- The session state just before the input_to callback runs (comm.c
3150-3160): NOECHO_STALE is OR-ed in only when noecho is nonzero, then the
executed redirect is popped off the stack. -/
def cfi_pre (c : Conn) : Conn :=
  { c with
    noecho := if c.noecho ≠ 0 then c.noecho ||| NOECHO_STALE else c.noecho
    input_to := c.input_to.tail }

/-- The post-callback step of call_function_interactive (comm.c
3190-3193): if NOECHO_STALE survived the callback, renegotiate to the next
redirects flags, or to zero if the stack is empty. -/
def cfi_post (cb : Conn → Conn) (c : Conn) : Conn :=
  if (cb (cfi_pre c)).noecho &&& NOECHO_STALE ≠ 0 then
    set_noecho (cb (cfi_pre c)) ((cb (cfi_pre c)).input_to.headD 0)
  else cb (cfi_pre c)

/-- call_function_interactive of comm.c (3059-3197) on its main path, the
callback abstracted as a state transformer cb: with no pending redirect it
returns false, otherwise it runs the pre-callback bookkeeping, the
callback, and the stale renegotiation, and returns true. -/
def call_function_interactive (cb : Conn → Conn) (c : Conn) : Bool × Conn :=
  if c.input_to = [] then (false, c)
  else (true, cfi_post cb c)

theorem noecho_reset_input_buffer (c : Conn) :
    (reset_input_buffer c).noecho = c.noecho := by
  rw [reset_input_buffer]
  split_ifs <;> rfl

theorem noecho_sn_echo_step (old conf2 : Nat) (c : Conn) :
    (sn_echo_step old conf2 c).noecho = c.noecho := by
  rw [sn_echo_step]
  split_ifs <;> rfl

theorem noecho_sn_sga_off_step (conf2 : Nat) (c : Conn) :
    (sn_sga_off_step conf2 c).noecho = c.noecho := by
  rw [sn_sga_off_step]
  split_ifs <;> rfl

theorem noecho_sn_restore_state (c : Conn) :
    (sn_restore_state c).noecho = c.noecho := by
  rw [sn_restore_state]
  split_ifs <;> rfl

theorem noecho_sn_charmode_off (old conf2 : Nat) (c : Conn) :
    (sn_charmode_off old conf2 c).noecho = c.noecho := by
  rw [sn_charmode_off]
  split_ifs <;> first
    | rfl
    | (rw [noecho_sn_restore_state]; try rfl)

theorem noecho_sn_charmode_step (old conf2 : Nat) (c : Conn) :
    (sn_charmode_step old conf2 c).noecho = c.noecho := by
  rw [sn_charmode_step]
  split_ifs with h1 h2
  · rw [noecho_reset_input_buffer, noecho_sn_charmode_off]
  · rfl
  · rfl

theorem set_noecho_noecho (c : Conn) (arg : Nat) :
    (set_noecho c arg).noecho = snConfirm arg := by
  rw [set_noecho]
  split_ifs with h
  · rw [noecho_sn_charmode_step, noecho_sn_sga_off_step, noecho_sn_echo_step]
  · rfl

/-- C9 counterexample: a session with noecho = 0 and a pending input
redirect is handed to the callback with the NOECHO_STALE bit still clear,
refuting the claim that noecho is OR-ed with NOECHO_STALE before every
callback: the source guards the OR with if (i->noecho). -/
theorem C9_counterexample :
    ({ fresh_conn with input_to := [0] } : Conn).input_to ≠ [] ∧
    (call_function_interactive (fun x => x)
        { fresh_conn with input_to := [0] }).1 = true ∧
    (cfi_pre { fresh_conn with input_to := [0] }).noecho &&& NOECHO_STALE = 0 := by
  refine ⟨by decide, ?_, by decide⟩
  rw [call_function_interactive, if_neg (by decide)]

/-- C9 amended: when a completed command is delivered to a pending input
redirect, NOECHO_STALE is OR-ed into noecho before the callback exactly
when noecho was nonzero; after the callback, if NOECHO_STALE is still set
the echo/charmode flags are renegotiated to the confirm value of the next
redirects flags (zero if the stack is empty), and if it is clear the
session is left exactly as the callback produced it. -/
theorem C9_stale_redirect (cb : Conn → Conn) (c : Conn) (h : c.input_to ≠ []) :
    (c.noecho ≠ 0 → (cfi_pre c).noecho = c.noecho ||| NOECHO_STALE) ∧
    (call_function_interactive cb c).1 = true ∧
    ((cb (cfi_pre c)).noecho &&& NOECHO_STALE ≠ 0 →
       (call_function_interactive cb c).2.noecho =
         snConfirm ((cb (cfi_pre c)).input_to.headD 0)) ∧
    ((cb (cfi_pre c)).noecho &&& NOECHO_STALE = 0 →
       (call_function_interactive cb c).2 = cb (cfi_pre c)) := by
  refine ⟨?_, ?_, ?_, ?_⟩
  · intro hz
    show (if c.noecho ≠ 0 then c.noecho ||| NOECHO_STALE else c.noecho) =
      c.noecho ||| NOECHO_STALE
    rw [if_pos hz]
  · rw [call_function_interactive, if_neg h]
  · intro hst
    rw [call_function_interactive, if_neg h]
    show (cfi_post cb c).noecho = _
    rw [cfi_post, if_pos hst]
    exact set_noecho_noecho (cb (cfi_pre c)) ((cb (cfi_pre c)).input_to.headD 0)
  · intro hst
    rw [call_function_interactive, if_neg h]
    show cfi_post cb c = _
    rw [cfi_post, if_neg (fun hx => hx hst)]

/-- C9 witness: the stale-redirect handling evaluated for an identity
callback on a session with noecho = 1 and a single pending redirect. -/
theorem C9_witness :
    (cfi_pre { fresh_conn with noecho := 1, input_to := [1] }).noecho =
      1 ||| NOECHO_STALE ∧
    (call_function_interactive (fun x => x)
        { fresh_conn with noecho := 1, input_to := [1] }).1 = true ∧
    (call_function_interactive (fun x => x)
        { fresh_conn with noecho := 1, input_to := [1] }).2.noecho = snConfirm 0 := by
  obtain ⟨h1, h2, h3, h4⟩ :=
    C9_stale_redirect (fun x => x) { fresh_conn with noecho := 1, input_to := [1] }
      (by decide)
  exact ⟨h1 (by decide), h2, h3 (by decide)⟩

/-! ### C10: the address cache lookup (comm.c 4832-4896) -/

/-- The iptable of comm.c: IPSIZE slots each holding an address and an
optional hostname string (none for the never-filled initial slots), plus
the insertion cursor ipcur. -/
structure IpTable where
  tab : Nat → Nat × Option Nat
  ipcur : Nat

/-- The backward search of lookup_ip_entry (comm.c 4850-4861): starting
just below the cursor and wrapping, return the first slot whose address
matches and whose name is non-null; the do-while visits every slot once. -/
def ip_search (t : IpTable) (addr : Nat) : Nat → Nat → Option Nat
  | 0, _ => none
  | fuel + 1, i =>
    if (t.tab ((i + IPSIZE - 1) % IPSIZE)).1 = addr ∧
       (t.tab ((i + IPSIZE - 1) % IPSIZE)).2 ≠ none then
      (t.tab ((i + IPSIZE - 1) % IPSIZE)).2
    else ip_search t addr fuel ((i + IPSIZE - 1) % IPSIZE)

/-- lookup_ip_entry of comm.c (4832-4896), with ipname the textual form of
the address (inet_ntoa).  A hit returns the cached name.  On a miss the
pair (addr, ipname) is stored in the slot at the cursor, the cursor
advances by one modulo IPSIZE, and the function returns
iptable[ipcur].name read after the advance. -/
def lookup_ip_entry (t : IpTable) (addr ipname : Nat) : Option Nat × IpTable :=
  match ip_search t addr IPSIZE t.ipcur with
  | some nm => (some nm, t)
  | none =>
    (((fun j => if j = t.ipcur then (addr, some ipname) else t.tab j)
        ((t.ipcur + 1) % IPSIZE)).2,
      { tab := fun j => if j = t.ipcur then (addr, some ipname) else t.tab j
        ipcur := (t.ipcur + 1) % IPSIZE })

/-- C10 confirmed: on a cache miss lookup_ip_entry stores the new address
with its textual name at the old cursor slot and advances the cursor, but
the string it returns is the name of the slot at the advanced cursor --
the oldest remaining entry, untouched by this insertion whenever the
advanced cursor differs from the old one -- and hence not necessarily the
name just stored. -/
theorem C10_lookup_miss (t : IpTable) (addr ipname : Nat)
    (h : ip_search t addr IPSIZE t.ipcur = none) :
    (lookup_ip_entry t addr ipname).2.tab t.ipcur = (addr, some ipname) ∧
    (lookup_ip_entry t addr ipname).2.ipcur = (t.ipcur + 1) % IPSIZE ∧
    (lookup_ip_entry t addr ipname).1 =
      ((lookup_ip_entry t addr ipname).2.tab ((t.ipcur + 1) % IPSIZE)).2 ∧
    ((t.ipcur + 1) % IPSIZE ≠ t.ipcur →
      (lookup_ip_entry t addr ipname).1 = (t.tab ((t.ipcur + 1) % IPSIZE)).2) := by
  rw [lookup_ip_entry, h]
  refine ⟨by simp, rfl, rfl, ?_⟩
  intro hne
  simp only []
  rw [if_neg hne]

/-- C10 witness: a miss on a two-entry cache with the cursor at 0; the
inserted name is 5 but the returned name is 42, the one cached in the slot
the cursor advanced to. -/
theorem C10_witness :
    (lookup_ip_entry
        { tab := fun j => if j = 1 then (99, some 42) else (0, none), ipcur := 0 }
        7 5).2.tab 0 = (7, some 5) ∧
    (lookup_ip_entry
        { tab := fun j => if j = 1 then (99, some 42) else (0, none), ipcur := 0 }
        7 5).2.ipcur = (0 + 1) % IPSIZE ∧
    (lookup_ip_entry
        { tab := fun j => if j = 1 then (99, some 42) else (0, none), ipcur := 0 }
        7 5).1 =
      ((lookup_ip_entry
          { tab := fun j => if j = 1 then (99, some 42) else (0, none), ipcur := 0 }
          7 5).2.tab ((0 + 1) % IPSIZE)).2 ∧
    ((0 + 1) % IPSIZE ≠ 0 →
      (lookup_ip_entry
          { tab := fun j => if j = 1 then (99, some 42) else (0, none), ipcur := 0 }
          7 5).1 =
        (({ tab := fun j => if j = 1 then (99, some 42) else (0, none), ipcur := 0 }
            : IpTable).tab ((0 + 1) % IPSIZE)).2) :=
  C10_lookup_miss
    { tab := fun j => if j = 1 then (99, some 42) else (0, none), ipcur := 0 }
    7 5 (by decide)

end LdmudComm
